import Mathlib

/-
Verification of the cloglog ordinal BART sampler
(src/stochtree/cloglog_ordinal_bart.py, class CloglogOrdinalBARTModel).

The Python file under verification drives an MCMC loop over shared
auxiliary state.  Pure control flow, validation, retention and indexing
logic live in the Python source and are embedded directly.  The collaborators
that the Python file calls but whose code is not part of the source tree
(the C++ OrdinalSamplerCpp, the Dataset auxiliary-data store, the
ForestSampler, the RNG and the NotSampledError class) are modelled from the
specification; every such definition carries a doc comment starting with
"Modelled from the spec:".
-/

namespace Stochtree

/-- The numpy dtypes that the outcome-vector validation distinguishes. -/
inductive NpDtype
  | int32
  | int64
  | float64
  | other
deriving DecidableEq

/-- A one-dimensional numpy array together with its dtype, used for y_train. -/
structure NpVector where
  dtype : NpDtype
  vals : List Int
deriving DecidableEq

/-- A two-dimensional covariate matrix: rows of rational-valued features,
plus the column count that the shape checks compare. -/
structure NpMatrix where
  data : List (List ℚ)
  cols : Nat
deriving DecidableEq

/-- Number of rows of a covariate matrix (shape[0]). -/
def NpMatrix.rows (X : NpMatrix) : Nat := X.data.length

/-- Python exception kinds raised by sample and predict.
Modelled from the spec: state errors are "reported distinctly from
validation errors", so NotSampledError is a separate constructor from
ValueError (its class definition lives in stochtree.utils, outside the
source tree). -/
inductive PyError
  | valueError (msg : String)
  | notSampledError (msg : String)
deriving DecidableEq

/-- Configuration arguments of CloglogOrdinalBARTModel.sample that the
verified claims mention. -/
structure SamplerConfig where
  nTrees : Nat
  numGfr : Nat
  numBurnin : Nat
  numMcmc : Nat
  nThin : Nat
  alphaGamma : ℚ
  betaGamma : ℚ
  seed : Nat
  numThreads : Nat
deriving DecidableEq

/-- Modelled from the spec: stand-in for the C++ pseudo-random stream
(the RNG(seed) object passed to every C++ sampling routine).  The verified
claims use only that the stream is a deterministic function of the seed. -/
def rngStep (s : Nat) : Nat := (1103515245 * s + 12345) % 2147483648

/-- Modelled from the spec: a unit draw from the RNG stream, lying in the
half-open interval (0, 1].  The latent update uses only its strict
positivity. -/
def rngUnit (s : Nat) : ℚ := ((s % 1000 : Nat) + 1 : ℚ) / 1000

theorem rngUnit_pos (s : Nat) : 0 < rngUnit s := by
  unfold rngUnit
  positivity

/-- Modelled from the spec: a computable, everywhere strictly positive
stand-in over ℚ for the exponential function used by the C++ cumulative
cutpoint transform.  The verified claims rely only on strict positivity. -/
def expQ (q : ℚ) : ℚ := if 0 ≤ q then 1 + q else 1 / (1 - q)

theorem expQ_pos (q : ℚ) : 0 < expQ q := by
  unfold expQ
  split
  · linarith
  · have h1 : (0 : ℚ) < 1 - q := by linarith [not_le.mp (by assumption)]
    positivity

/-- Modelled from the spec: the Auxiliary Data Store is a set of parallel
arrays addressed by a dimension index (assigned in the order of the
add_auxiliary_dimension calls) and a slot index. -/
abbrev AuxStore := List (List ℚ)

/-- Modelled from the spec: allocating an auxiliary dimension creates a new
array of the requested length with every slot zero-initialized
(spec section 4.4: "all slots are zero-initialized at fit start"). -/
def add_auxiliary_dimension (s : AuxStore) (n : Nat) : AuxStore :=
  s ++ [List.replicate n 0]

/-- Write one slot of a single array; a negative or out-of-range slot index
leaves the array unchanged (the spec fixes no behavior for such writes). -/
def slotWrite (l : List ℚ) (idx : Int) (v : ℚ) : List ℚ :=
  if 0 ≤ idx then l.set idx.toNat v else l

/-- Modelled from the spec: set_auxiliary_data_value writes one slot of one
auxiliary dimension in O(1). -/
def set_auxiliary_data_value (s : AuxStore) (d : Nat) (idx : Int) (v : ℚ) : AuxStore :=
  s.set d (slotWrite (s.getD d []) idx v)

/-- Modelled from the spec: get_auxiliary_data_array reads one whole
auxiliary dimension. -/
def get_auxiliary_data_array (s : AuxStore) (d : Nat) : List ℚ :=
  s.getD d []

/-- Read one auxiliary slot (missing dimensions and slots read as 0). -/
def get_auxiliary_data_value (s : AuxStore) (d i : Nat) : ℚ :=
  (get_auxiliary_data_array s d).getD i 0

theorem slotWrite_length (l : List ℚ) (idx : Int) (v : ℚ) :
    (slotWrite l idx v).length = l.length := by
  unfold slotWrite
  split <;> simp

theorem aux_length_set (s : AuxStore) (d : Nat) (idx : Int) (v : ℚ) :
    (set_auxiliary_data_value s d idx v).length = s.length := by
  unfold set_auxiliary_data_value
  simp

theorem get_array_set_ne (s : AuxStore) (d d2 : Nat) (idx : Int) (v : ℚ) (h : d2 ≠ d) :
    get_auxiliary_data_array (set_auxiliary_data_value s d idx v) d2 =
      get_auxiliary_data_array s d2 := by
  unfold get_auxiliary_data_array set_auxiliary_data_value
  simp only [List.getD_eq_getElem?_getD]
  rw [List.getElem?_set_ne (Ne.symm h)]

theorem get_array_set_eq (s : AuxStore) (d : Nat) (idx : Int) (v : ℚ) (h : d < s.length) :
    get_auxiliary_data_array (set_auxiliary_data_value s d idx v) d =
      slotWrite (get_auxiliary_data_array s d) idx v := by
  unfold get_auxiliary_data_array set_auxiliary_data_value
  rw [List.getD_eq_getElem?_getD, List.getElem?_set_self (by simpa using h)]
  rw [List.getD_eq_getElem?_getD, List.getElem?_eq_getElem h]
  rfl

/-- Write consecutive slots of one plain list starting at position k
(value j of vals lands in slot k + j). -/
def overwriteFrom (l : List ℚ) (k : Nat) : List ℚ → List ℚ
  | [] => l
  | v :: rest => overwriteFrom (l.set k v) (k + 1) rest

theorem overwriteFrom_nil_base (k : Nat) : ∀ vals, overwriteFrom [] k vals = [] := by
  intro vals
  induction vals generalizing k with
  | nil => rfl
  | cons v rest ih => simpa [overwriteFrom] using ih (k + 1)

theorem overwriteFrom_cons_shift (vals : List ℚ) :
    ∀ (x : ℚ) (l : List ℚ) (k : Nat),
      overwriteFrom (x :: l) (k + 1) vals = x :: overwriteFrom l k vals := by
  induction vals with
  | nil => intro x l k; rfl
  | cons v rest ih =>
      intro x l k
      show overwriteFrom ((x :: l).set (k + 1) v) (k + 2) rest =
        x :: overwriteFrom (l.set k v) (k + 1) rest
      rw [List.set_cons_succ]
      exact ih x (l.set k v) (k + 1)

theorem overwriteFrom_full (vals : List ℚ) :
    ∀ (l : List ℚ), l.length = vals.length → overwriteFrom l 0 vals = vals := by
  induction vals with
  | nil =>
      intro l hl
      rw [List.length_eq_zero.mp hl]
      rfl
  | cons v rest ih =>
      intro l hl
      match l with
      | [] => simp at hl
      | x :: l2 =>
          show overwriteFrom ((x :: l2).set 0 v) 1 rest = v :: rest
          rw [List.set_cons_zero]
          rw [show (1 : Nat) = 0 + 1 from rfl, overwriteFrom_cons_shift]
          simp at hl
          rw [ih l2 hl]

/-- The per-observation write loop of the Python source: for each j below
vals.length, set auxiliary slot (d, k + j) to vals[j]. -/
def write_dim_loop (s : AuxStore) (d : Nat) (vals : List ℚ) (k : Nat) : AuxStore :=
  match vals with
  | [] => s
  | v :: rest => write_dim_loop (set_auxiliary_data_value s d (k : Int) v) d rest (k + 1)

theorem write_dim_loop_length (vals : List ℚ) :
    ∀ (s : AuxStore) (d k : Nat), (write_dim_loop s d vals k).length = s.length := by
  induction vals with
  | nil => intro s d k; rfl
  | cons v rest ih =>
      intro s d k
      show (write_dim_loop (set_auxiliary_data_value s d (k : Int) v) d rest (k + 1)).length =
        s.length
      rw [ih, aux_length_set]

theorem write_dim_loop_other (vals : List ℚ) :
    ∀ (s : AuxStore) (d d2 k : Nat), d2 ≠ d →
      get_auxiliary_data_array (write_dim_loop s d vals k) d2 =
        get_auxiliary_data_array s d2 := by
  induction vals with
  | nil => intro s d d2 k _; rfl
  | cons v rest ih =>
      intro s d d2 k h
      show get_auxiliary_data_array
        (write_dim_loop (set_auxiliary_data_value s d (k : Int) v) d rest (k + 1)) d2 = _
      rw [ih _ _ _ _ h, get_array_set_ne _ _ _ _ _ h]

theorem write_dim_loop_self (vals : List ℚ) :
    ∀ (s : AuxStore) (d k : Nat),
      get_auxiliary_data_array (write_dim_loop s d vals k) d =
        overwriteFrom (get_auxiliary_data_array s d) k vals := by
  induction vals with
  | nil => intro s d k; rfl
  | cons v rest ih =>
      intro s d k
      show get_auxiliary_data_array
          (write_dim_loop (set_auxiliary_data_value s d (k : Int) v) d rest (k + 1)) d =
        overwriteFrom ((get_auxiliary_data_array s d).set k v) (k + 1) rest
      rw [ih]
      rcases Nat.lt_or_ge d s.length with hd | hd
      · rw [get_array_set_eq _ _ _ _ hd]
        unfold slotWrite
        rw [if_pos (Int.ofNat_nonneg k)]
        norm_num
      · have hnoop : set_auxiliary_data_value s d (k : Int) v = s := by
          unfold set_auxiliary_data_value
          exact List.set_eq_of_length_le hd
        have hempty : get_auxiliary_data_array s d = [] := by
          unfold get_auxiliary_data_array
          rw [List.getD_eq_getElem?_getD, List.getElem?_eq_none (by simpa using hd)]
          rfl
        rw [hnoop, hempty]
        rfl

theorem write_dim_loop_exact (s : AuxStore) (d : Nat) (vals : List ℚ)
    (h : (get_auxiliary_data_array s d).length = vals.length) :
    get_auxiliary_data_array (write_dim_loop s d vals 0) d = vals := by
  rw [write_dim_loop_self, overwriteFrom_full vals _ h]

/-- Whole-dimension analogues of the single-slot lemmas, for the operations
that replace a full auxiliary array. -/
theorem get_array_replaceDim_ne (s : AuxStore) (d d2 : Nat) (x : List ℚ) (h : d2 ≠ d) :
    get_auxiliary_data_array (s.set d x) d2 = get_auxiliary_data_array s d2 := by
  unfold get_auxiliary_data_array
  simp only [List.getD_eq_getElem?_getD]
  rw [List.getElem?_set_ne (Ne.symm h)]

theorem get_array_replaceDim_eq (s : AuxStore) (d : Nat) (x : List ℚ) (h : d < s.length) :
    get_auxiliary_data_array (s.set d x) d = x := by
  unfold get_auxiliary_data_array
  rw [List.getD_eq_getElem?_getD, List.getElem?_set_self (by simpa using h)]
  rfl

/-- Modelled from the spec: the cumulative transformed cutpoints; slot k of
the result holds the sum of expQ over the first k entries of the gamma
array (sum over j less than k of exp of gamma_j), as the source comment on
the fourth auxiliary dimension describes. -/
def cumulativeExpSums (gam : List ℚ) (len : Nat) : List ℚ :=
  (List.range len).map (fun k => ((gam.take k).map expQ).sum)

/-- Modelled from the spec: OrdinalSamplerCpp.UpdateCumulativeExpSums
recomputes the whole cumulative array (dimension 3) from the current gamma
array (dimension 2); it is a derived quantity, never independently
mutated. -/
def update_cumulative_exp_sums (s : AuxStore) : AuxStore :=
  s.set 3 (cumulativeExpSums (get_auxiliary_data_array s 2)
    (get_auxiliary_data_array s 3).length)

theorem cumulativeExpSums_length (gam : List ℚ) (len : Nat) :
    (cumulativeExpSums gam len).length = len := by
  unfold cumulativeExpSums
  simp

theorem cumulativeExpSums_nonneg (gam : List ℚ) (len j : Nat) :
    0 ≤ (cumulativeExpSums gam len).getD j 0 := by
  unfold cumulativeExpSums
  rcases Nat.lt_or_ge j len with hj | hj
  · rw [List.getD_eq_getElem?_getD, List.getElem?_map]
    rw [List.getElem?_range hj]
    simp only [Option.map_some', Option.getD_some]
    apply List.sum_nonneg
    intro x hx
    rcases List.mem_map.mp hx with ⟨q, _, rfl⟩
    exact le_of_lt (expQ_pos q)
  · rw [List.getD_eq_getElem?_getD,
      List.getElem?_eq_none (by simpa [cumulativeExpSums] using hj)]
    simp

theorem cumulativeExpSums_adjacent (gam : List ℚ) (len k : Nat)
    (h1 : k + 1 < len) (h2 : k < gam.length) :
    (cumulativeExpSums gam len).getD (k + 1) 0 =
      (cumulativeExpSums gam len).getD k 0 + expQ (gam.getD k 0) := by
  have hk1 : (cumulativeExpSums gam len).getD (k + 1) 0 =
      ((gam.take (k + 1)).map expQ).sum := by
    unfold cumulativeExpSums
    rw [List.getD_eq_getElem?_getD, List.getElem?_map, List.getElem?_range h1]
    rfl
  have hk0 : (cumulativeExpSums gam len).getD k 0 = ((gam.take k).map expQ).sum := by
    unfold cumulativeExpSums
    rw [List.getD_eq_getElem?_getD, List.getElem?_map,
      List.getElem?_range (Nat.lt_of_succ_lt h1)]
    rfl
  rw [hk1, hk0]
  rw [List.take_succ, List.getElem?_eq_getElem h2]
  rw [List.getD_eq_getElem?_getD, List.getElem?_eq_getElem h2]
  simp only [Option.toList_some, Option.getD_some, List.map_append, List.sum_append,
    List.map_cons, List.map_nil, List.sum_cons, List.sum_nil]
  ring

/-- Modelled from the spec: the active forest of the Ensemble Sampler.  The
verified claims concern the driver (control flow, retention, determinism),
not tree topology, so each tree is kept as the scalar contribution of a
root leaf, exactly the shape Forest(n_trees, 1, True, False) has after
set_root_leaves(0.0). -/
structure Forest where
  trees : List ℚ
deriving DecidableEq

/-- A fresh forest of nTrees root-only trees. -/
def Forest.mk_root (nTrees : Nat) : Forest := { trees := List.replicate nTrees 0 }

/-- Set every root leaf to the given value. -/
def Forest.set_root_leaves (f : Forest) (v : ℚ) : Forest :=
  { trees := f.trees.map (fun _ => v) }

/-- Forest prediction for a dataset of n observations: each row is routed
through every tree and the leaf values are summed (predictions of root-only
trees are constant across rows). -/
def Forest.predict_vec (f : Forest) (n : Nat) : List ℚ :=
  List.replicate n f.trees.sum

/-- Modelled from the spec: one call to ForestSampler.sample_one_iteration.
It mutates every tree of the active forest using the RNG stream; the
boolean flag passed by the driver selects between the two tree-proposal
modes of spec section 4.1, and the second component is the advanced RNG
state. -/
def forest_sampler_step (f : Forest) (rng : Nat) (flag : Bool) : Forest × Nat :=
  ({ trees := f.trees.map
      (fun t => t + (if flag then rngUnit rng else -(rngUnit rng))) }, rngStep rng)

/-- Modelled from the spec: the exact inverse-CDF draw of the latent
update, for observation category k with forest prediction lam.  The draw
lies strictly inside the truncation interval (c_k exp(lam), c_kp1 exp(lam)]
when the category has a finite upper cutpoint, and strictly above the lower
endpoint otherwise (upper bound c_K = infinity for the top category). -/
def truncated_exp_draw (u lam ck ckp1 : ℚ) (finiteUpper : Bool) : ℚ :=
  if finiteUpper then ck * expQ lam + u * ((ckp1 - ck) * expQ lam)
  else ck * expQ lam + u

/-- Modelled from the spec: the per-observation body of
OrdinalSamplerCpp.UpdateLatentVariables.  For each observation index in
idxs, read its category from y, its forest prediction from dimension 1 and
the cumulative cutpoints from dimension 3, draw the truncated exponential
and write it into dimension 0, consuming one RNG draw per observation. -/
def update_latent_go (y : List Nat) (K : Nat) (idxs : List Nat) (s : AuxStore)
    (rng : Nat) : AuxStore × Nat :=
  match idxs with
  | [] => (s, rng)
  | i :: rest =>
      let k := y.getD i 0
      let lam := get_auxiliary_data_value s 1 i
      let ck := get_auxiliary_data_value s 3 k
      let ckp1 := get_auxiliary_data_value s 3 (k + 1)
      let z := truncated_exp_draw (rngUnit rng) lam ck ckp1 (decide (k + 1 < K))
      update_latent_go y K rest (set_auxiliary_data_value s 0 (i : Int) z) (rngStep rng)

/-- Modelled from the spec: OrdinalSamplerCpp.UpdateLatentVariables runs
the latent update over all n_train observations. -/
def update_latent_variables (y : List Nat) (K n : Nat) (s : AuxStore) (rng : Nat) :
    AuxStore × Nat :=
  update_latent_go y K (List.range n) s rng

/-- Modelled from the spec: the conditional-posterior draw of one free
cutpoint, a deterministic function of the prior hyperparameters and the RNG
stream. -/
def gamma_draw (alphaG betaG gamma0 : ℚ) (rng : Nat) : ℚ :=
  gamma0 + alphaG - betaG * rngUnit rng

/-- Modelled from the spec: the per-cutpoint body of
OrdinalSamplerCpp.UpdateGammaParams, writing one redrawn gamma value per
free cutpoint index into dimension 2. -/
def update_gamma_go (alphaG betaG gamma0 : ℚ) (ks : List Nat) (s : AuxStore)
    (rng : Nat) : AuxStore × Nat :=
  match ks with
  | [] => (s, rng)
  | k :: rest =>
      update_gamma_go alphaG betaG gamma0 rest
        (set_auxiliary_data_value s 2 (k : Int) (gamma_draw alphaG betaG gamma0 rng))
        (rngStep rng)

/-- Modelled from the spec: OrdinalSamplerCpp.UpdateGammaParams redraws
every free cutpoint (every slot of dimension 2). -/
def update_gamma_params (s : AuxStore) (alphaG betaG gamma0 : ℚ) (rng : Nat) :
    AuxStore × Nat :=
  update_gamma_go alphaG betaG gamma0
    (List.range (get_auxiliary_data_array s 2).length) s rng

theorem update_latent_go_other (y : List Nat) (K : Nat) (idxs : List Nat) :
    ∀ (s : AuxStore) (rng : Nat) (d : Nat), d ≠ 0 →
      get_auxiliary_data_array (update_latent_go y K idxs s rng).1 d =
        get_auxiliary_data_array s d := by
  induction idxs with
  | nil => intro s rng d _; rfl
  | cons i rest ih =>
      intro s rng d hd
      show get_auxiliary_data_array (update_latent_go y K rest _ _).1 d = _
      rw [ih _ _ _ hd, get_array_set_ne _ _ _ _ _ hd]

theorem update_latent_go_store_length (y : List Nat) (K : Nat) (idxs : List Nat) :
    ∀ (s : AuxStore) (rng : Nat), (update_latent_go y K idxs s rng).1.length = s.length := by
  induction idxs with
  | nil => intro s rng; rfl
  | cons i rest ih =>
      intro s rng
      show (update_latent_go y K rest _ _).1.length = _
      rw [ih, aux_length_set]

theorem update_latent_go_dim0_length (y : List Nat) (K : Nat) (idxs : List Nat) :
    ∀ (s : AuxStore) (rng : Nat),
      (get_auxiliary_data_array (update_latent_go y K idxs s rng).1 0).length =
        (get_auxiliary_data_array s 0).length := by
  induction idxs with
  | nil => intro s rng; rfl
  | cons i rest ih =>
      intro s rng
      show (get_auxiliary_data_array (update_latent_go y K rest _ _).1 0).length = _
      rw [ih]
      rcases Nat.lt_or_ge 0 s.length with hd | hd
      · rw [get_array_set_eq _ _ _ _ hd, slotWrite_length]
      · unfold set_auxiliary_data_value
        rw [List.set_eq_of_length_le hd]

theorem update_gamma_go_other (alphaG betaG gamma0 : ℚ) (ks : List Nat) :
    ∀ (s : AuxStore) (rng : Nat) (d : Nat), d ≠ 2 →
      get_auxiliary_data_array (update_gamma_go alphaG betaG gamma0 ks s rng).1 d =
        get_auxiliary_data_array s d := by
  induction ks with
  | nil => intro s rng d _; rfl
  | cons k rest ih =>
      intro s rng d hd
      show get_auxiliary_data_array (update_gamma_go alphaG betaG gamma0 rest _ _).1 d = _
      rw [ih _ _ _ hd, get_array_set_ne _ _ _ _ _ hd]

theorem update_gamma_go_store_length (alphaG betaG gamma0 : ℚ) (ks : List Nat) :
    ∀ (s : AuxStore) (rng : Nat),
      (update_gamma_go alphaG betaG gamma0 ks s rng).1.length = s.length := by
  induction ks with
  | nil => intro s rng; rfl
  | cons k rest ih =>
      intro s rng
      show (update_gamma_go alphaG betaG gamma0 rest _ _).1.length = _
      rw [ih, aux_length_set]

theorem update_gamma_go_dim2_length (alphaG betaG gamma0 : ℚ) (ks : List Nat) :
    ∀ (s : AuxStore) (rng : Nat),
      (get_auxiliary_data_array (update_gamma_go alphaG betaG gamma0 ks s rng).1 2).length =
        (get_auxiliary_data_array s 2).length := by
  induction ks with
  | nil => intro s rng; rfl
  | cons k rest ih =>
      intro s rng
      show (get_auxiliary_data_array (update_gamma_go alphaG betaG gamma0 rest _ _).1 2).length = _
      rw [ih]
      rcases Nat.lt_or_ge 2 s.length with hd | hd
      · rw [get_array_set_eq _ _ _ _ hd, slotWrite_length]
      · unfold set_auxiliary_data_value
        rw [List.set_eq_of_length_le hd]

/-- Error message of the y_train dtype check (source line 101). -/
def msg_y_integer : String := "y_train must be an integer-valued numpy array"

/-- Error message of the y_train sign check (source line 103). -/
def msg_y_nonneg : String := "y_train must be non-negative integer-valued"

/-- Error message of the column-count check (source lines 119-121). -/
def msg_cols : String := "X_train and X_test must have the same number of columns"

/-- Error message of the row-count check (source line 123). -/
def msg_rows : String := "X_train and y_train must have the same number of rows"

/-- Error message of the outcome-category check (source line 171). -/
def msg_levels : String := "y_train must have at least 2 outcome categories"

/-- Error message numpy raises when np.max runs on an empty array. -/
def msg_zero_size : String :=
  "zero-size array to reduction operation maximum which has no identity"

/-- Source line 100-101: y_train.dtype must be int32 or int64. -/
def check_y_dtype (y : NpVector) : Except PyError Unit :=
  if y.dtype = NpDtype.int32 ∨ y.dtype = NpDtype.int64 then Except.ok ()
  else Except.error (PyError.valueError msg_y_integer)

/-- Source line 102-103: no outcome value may be negative. -/
def check_y_nonneg (y : NpVector) : Except PyError Unit :=
  if ∃ v ∈ y.vals, v < 0 then Except.error (PyError.valueError msg_y_nonneg)
  else Except.ok ()

/-- Source lines 117-121: a provided test matrix must have the same number
of columns as the training matrix. -/
def check_test_cols (X : NpMatrix) : Option NpMatrix → Except PyError Unit
  | none => Except.ok ()
  | some Xt =>
      if Xt.cols ≠ X.cols then Except.error (PyError.valueError msg_cols)
      else Except.ok ()

/-- Source lines 122-123: y_train and X_train must have the same number of
rows. -/
def check_train_rows (X : NpMatrix) (y : NpVector) : Except PyError Unit :=
  if y.vals.length ≠ X.rows then Except.error (PyError.valueError msg_rows)
  else Except.ok ()

/-- np.max over the outcome values (np.unique changes nothing about the
maximum); numpy raises a ValueError on an empty array. -/
def np_max_int : List Int → Except PyError Int
  | [] => Except.error (PyError.valueError msg_zero_size)
  | v :: rest => Except.ok (rest.foldl max v)

/-- The data facts that survive validation and feed the sampling loop. -/
structure ValidData where
  nTrain : Nat
  nTest : Nat
  hasTest : Bool
  numLevels : Nat
  yVals : List Int
deriving DecidableEq

/-- The input-validation prefix of CloglogOrdinalBARTModel.sample (source
lines 88-171), in source order: dtype, sign, column count, row count, then
the category count n_levels = np.max(np.unique(np.squeeze(y_train))) + 1
with its at-least-2 check.  The covariate preprocessing and variable-weight
handling in between are out of scope per spec section 1 and touch none of
the quantities below. -/
def validateInputs (X : NpMatrix) (y : NpVector) (Xt : Option NpMatrix) :
    Except PyError ValidData :=
  match check_y_dtype y with
  | Except.error e => Except.error e
  | Except.ok _ =>
  match check_y_nonneg y with
  | Except.error e => Except.error e
  | Except.ok _ =>
  match check_test_cols X Xt with
  | Except.error e => Except.error e
  | Except.ok _ =>
  match check_train_rows X y with
  | Except.error e => Except.error e
  | Except.ok _ =>
  match np_max_int y.vals with
  | Except.error e => Except.error e
  | Except.ok m =>
  if m + 1 < 2 then
    Except.error (PyError.valueError msg_levels)
  else
    Except.ok
      { nTrain := y.vals.length,
        nTest := match Xt with | some Xtm => Xtm.rows | none => 0,
        hasTest := Xt.isSome,
        numLevels := (m + 1).toNat,
        yVals := y.vals }

/-- np.arange(start, stop, step) over naturals; the count of emitted values
is the round-up of (stop - start) / step.  The sampler is only ever run
with a positive thinning interval (numpy rejects a zero step). -/
def npArange (start stop step : Nat) : List Nat :=
  (List.range ((stop - start + step - 1) / step)).map (fun j => start + j * step)

/-- Source lines 185-187: the retained iteration indices
np.arange(num_gfr + num_burnin, num_gfr + num_burnin + num_mcmc, n_thin). -/
def keep_indices (cfg : SamplerConfig) : List Nat :=
  npArange (cfg.numGfr + cfg.numBurnin)
    (cfg.numGfr + cfg.numBurnin + cfg.numMcmc) cfg.nThin

/-- Source lines 252-255: the gamma zero-initialization loop.  Note the
source writes initial_gamma[i] (always 0.0) to slot index i - 1, so the
touched indices are -1 through K - 3. -/
def init_gamma_loop (s : AuxStore) (m : Nat) : AuxStore :=
  (List.range m).foldl (fun acc i => set_auxiliary_data_value acc 2 ((i : Int) - 1) 0) s

/-- Source lines 239-267: auxiliary-store construction at fit start, in
source order: allocate the four dimensions (latent, forest prediction,
gamma, cumulative exp sums), run the gamma init loop, refresh the
cumulative sums, then zero the forest-prediction and latent slots. -/
def init_aux_store (n K : Nat) : AuxStore :=
  let s0 := add_auxiliary_dimension [] n
  let s1 := add_auxiliary_dimension s0 n
  let s2 := add_auxiliary_dimension s1 (K - 1)
  let s3 := add_auxiliary_dimension s2 K
  let s4 := init_gamma_loop s3 (K - 1)
  let s5 := update_cumulative_exp_sums s4
  let s6 := write_dim_loop s5 1 (List.replicate n 0) 0
  write_dim_loop s6 0 (List.replicate n 0) 0

/-- The two tree-proposal modes of spec section 4.1. -/
inductive PhaseMode
  | warmstart
  | mh
deriving DecidableEq

/-- Observable steps of one driver iteration, in execution order.  The
pred_write event carries the predictions written into auxiliary dimension
1; the latent_step event carries the dimension-1 contents the latent update
reads, so staleness is visible in the trace. -/
inductive Event
  | ensemble_update (mode : PhaseMode) (persist : Bool)
  | pred_write (preds : List ℚ)
  | latent_step (slot1 : List ℚ)
  | gamma_step
  | cum_exp_step
  | store_draw (col : Nat) (iter : Nat)
deriving DecidableEq

/-- Mutable state of the sampling loop of CloglogOrdinalBARTModel.sample.
The four sample containers are preallocated with n_keep empty columns
(np.empty) and filled by column index, so a column is an Option. -/
structure LoopState where
  active_forest : Forest
  forest_samples : List Forest
  aux : AuxStore
  rng : Nat
  sample_counter : Int
  forest_pred_train : List (Option (List ℚ))
  forest_pred_test : Option (List (Option (List ℚ)))
  gamma_samples : List (Option (List ℚ))
  latent_samples : List (Option (List ℚ))
  trace : List Event
deriving DecidableEq

/-- Source line 272: keep_sample = i in keep_idx. -/
def iter_keep (kidx : List Nat) (i : Nat) : Bool := decide (i ∈ kidx)

/-- Source line 277: the branch condition i > num_gfr - 1 over Python
integers (so iterations 0 .. num_gfr - 1 take the other branch). -/
def iter_flag (cfg : SamplerConfig) (i : Nat) : Bool :=
  decide ((i : Int) > (cfg.numGfr : Int) - 1)

/-- Modelled from the spec: per section 4.1 the branch taken when
i < num_warmstart runs the warm-start (grow-from-root) proposal and the
other branch runs the standard Metropolis-Hastings proposal. -/
def iter_mode (cfg : SamplerConfig) (i : Nat) : PhaseMode :=
  if iter_flag cfg i then PhaseMode.mh else PhaseMode.warmstart

/-- The active forest right after this iteration's ensemble update. -/
def iter_forest (cfg : SamplerConfig) (st : LoopState) (i : Nat) : Forest :=
  (forest_sampler_step st.active_forest st.rng (iter_flag cfg i)).1

/-- This iteration's freshly recomputed forest predictions
(active_forest.predict on the training dataset, source line 306). -/
def iter_preds (vd : ValidData) (cfg : SamplerConfig) (st : LoopState) (i : Nat) :
    List ℚ :=
  (iter_forest cfg st i).predict_vec vd.nTrain

/-- The dimension-1 contents after this iteration's prediction write,
exactly what the latent update then reads. -/
def iter_slot1 (vd : ValidData) (cfg : SamplerConfig) (st : LoopState) (i : Nat) :
    List ℚ :=
  get_auxiliary_data_array (write_dim_loop st.aux 1 (iter_preds vd cfg st i) 0) 1

/-- Source line 274: the retained-sample counter advances at the top of a
kept iteration. -/
def iter_counter (kidx : List Nat) (st : LoopState) (i : Nat) : Int :=
  if iter_keep kidx i then st.sample_counter + 1 else st.sample_counter

/-- The events one iteration appends to the trace. -/
def iter_events (vd : ValidData) (cfg : SamplerConfig) (kidx : List Nat)
    (st : LoopState) (i : Nat) : List Event :=
  [Event.ensemble_update (iter_mode cfg i) (iter_keep kidx i),
   Event.pred_write (iter_preds vd cfg st i),
   Event.latent_step (iter_slot1 vd cfg st i),
   Event.gamma_step, Event.cum_exp_step] ++
    (if iter_keep kidx i then
      [Event.store_draw (iter_counter kidx st i).toNat i] else [])

/-- One iteration of the sampling loop (source lines 270-345): ensemble
update, prediction rewrite into dimension 1, latent update, gamma update,
cumulative refresh, then retention if i is a kept index. -/
def run_iter (vd : ValidData) (cfg : SamplerConfig) (kidx : List Nat)
    (st : LoopState) (i : Nat) : LoopState :=
  let keep := iter_keep kidx i
  let counter := iter_counter kidx st i
  let forest1 := iter_forest cfg st i
  let rng1 := (forest_sampler_step st.active_forest st.rng (iter_flag cfg i)).2
  let samples1 := if keep then st.forest_samples ++ [forest1] else st.forest_samples
  let preds := iter_preds vd cfg st i
  let aux1 := write_dim_loop st.aux 1 preds 0
  let lat := update_latent_variables (vd.yVals.map Int.toNat) vd.numLevels
    vd.nTrain aux1 rng1
  let gam := update_gamma_params lat.1 cfg.alphaGamma cfg.betaGamma 0 lat.2
  let aux4 := update_cumulative_exp_sums gam.1
  if keep then
    { active_forest := forest1,
      forest_samples := samples1,
      aux := aux4,
      rng := gam.2,
      sample_counter := counter,
      forest_pred_train := st.forest_pred_train.set counter.toNat
        (some (forest1.predict_vec vd.nTrain)),
      forest_pred_test := st.forest_pred_test.map
        (fun c => c.set counter.toNat (some (forest1.predict_vec vd.nTest))),
      gamma_samples := st.gamma_samples.set counter.toNat
        (some (get_auxiliary_data_array aux4 2)),
      latent_samples := st.latent_samples.set counter.toNat
        (some (get_auxiliary_data_array aux4 0)),
      trace := st.trace ++ iter_events vd cfg kidx st i }
  else
    { st with
      active_forest := forest1,
      forest_samples := samples1,
      aux := aux4,
      rng := gam.2,
      sample_counter := counter,
      trace := st.trace ++ iter_events vd cfg kidx st i }

/-- Fold of the sampling loop over a list of iteration indices. -/
def loop_iters (vd : ValidData) (cfg : SamplerConfig) (kidx : List Nat)
    (st : LoopState) (iters : List Nat) : LoopState :=
  iters.foldl (run_iter vd cfg kidx) st

/-- Loop state before the first iteration (source lines 190-270): fresh
root-leaf forest, zero-initialized auxiliary store, preallocated empty
sample containers, sample_counter = -1. -/
def initial_state (vd : ValidData) (cfg : SamplerConfig) : LoopState :=
  { active_forest := (Forest.mk_root cfg.nTrees).set_root_leaves 0,
    forest_samples := [],
    aux := init_aux_store vd.nTrain vd.numLevels,
    rng := cfg.seed,
    sample_counter := -1,
    forest_pred_train := List.replicate (keep_indices cfg).length none,
    forest_pred_test :=
      if vd.hasTest then some (List.replicate (keep_indices cfg).length none) else none,
    gamma_samples := List.replicate (keep_indices cfg).length none,
    latent_samples := List.replicate (keep_indices cfg).length none,
    trace := [] }

/-- State after the first t iterations of the chain. -/
def chain_state (vd : ValidData) (cfg : SamplerConfig) (t : Nat) : LoopState :=
  loop_iters vd cfg (keep_indices cfg) (initial_state vd cfg) (List.range t)

/-- Results cached on the model object by a completed sample call. -/
structure SampleOutput where
  keep_idx : List Nat
  n_keep : Nat
  forest_pred_train : List (Option (List ℚ))
  forest_pred_test : Option (List (Option (List ℚ)))
  gamma_samples : List (Option (List ℚ))
  latent_samples : List (Option (List ℚ))
  trace : List Event
  final_aux : AuxStore
  forest_samples : List Forest
deriving DecidableEq

/-- CloglogOrdinalBARTModel.sample: validate the inputs (any failure raises
before the loop, so no iteration runs and no sampling state is created),
then run num_gfr + num_burnin + num_mcmc iterations and return the filled
sample containers. -/
def CloglogOrdinalBARTModel.sample (X : NpMatrix) (y : NpVector)
    (Xt : Option NpMatrix) (cfg : SamplerConfig) : Except PyError SampleOutput :=
  match validateInputs X y Xt with
  | Except.error e => Except.error e
  | Except.ok vd =>
  let fin := chain_state vd cfg (cfg.numGfr + cfg.numBurnin + cfg.numMcmc)
  Except.ok
    { keep_idx := keep_indices cfg,
      n_keep := (keep_indices cfg).length,
      forest_pred_train := fin.forest_pred_train,
      forest_pred_test := fin.forest_pred_test,
      gamma_samples := fin.gamma_samples,
      latent_samples := fin.latent_samples,
      trace := fin.trace,
      final_aux := fin.aux,
      forest_samples := fin.forest_samples }

/-- Model-object state relevant to predict: the sampled flag (False from
__init__, True only after a completed sample call) and the retained forest
snapshots. -/
structure ModelState where
  sampled : Bool
  forest_samples : List Forest
deriving DecidableEq

/-- CloglogOrdinalBARTModel.__init__: the flag starts False. -/
def CloglogOrdinalBARTModel.new_model : ModelState :=
  { sampled := false, forest_samples := [] }

/-- CloglogOrdinalBARTModel.is_sampled (source lines 690-698). -/
def CloglogOrdinalBARTModel.is_sampled (m : ModelState) : Bool := m.sampled

/-- The model state a completed sample call leaves behind (source line 348
sets self.sampled = True). -/
def model_after_sample (out : SampleOutput) : ModelState :=
  { sampled := true, forest_samples := out.forest_samples }

/-- Message of the not-fitted error raised by predict (source lines
366-371). -/
def not_fitted_msg : String :=
  "This CloglogOrdinalBARTModel instance is not fitted yet. Call fit with appropriate arguments before using this model."

/-- CloglogOrdinalBARTModel.predict (source lines 350-412): the is_sampled
check comes first and raises NotSampledError; only then are the covariates
examined and routed through every retained forest snapshot. -/
def CloglogOrdinalBARTModel.predict (m : ModelState) (X : NpMatrix) :
    Except PyError (List (List ℚ)) :=
  if CloglogOrdinalBARTModel.is_sampled m = false then
    Except.error (PyError.notSampledError not_fitted_msg)
  else
    Except.ok (m.forest_samples.map (fun f => f.predict_vec X.rows))

/-- The ensemble-sampler invocations of a trace, with mode and persist
flag, in order. -/
def ensemble_events (t : List Event) : List (PhaseMode × Bool) :=
  t.filterMap (fun e => match e with
    | Event.ensemble_update m p => some (m, p)
    | _ => none)

/-- The retention events of a trace as (column, iteration) pairs, in
order. -/
def store_events (t : List Event) : List (Nat × Nat) :=
  t.filterMap (fun e => match e with
    | Event.store_draw c i => some (c, i)
    | _ => none)

/-- Whether a sample call completed without raising. -/
def sample_is_ok (r : Except PyError SampleOutput) : Bool :=
  match r with
  | Except.ok _ => true
  | Except.error _ => false

/-- Number of ensemble-sampler invocations a sample call performed. -/
def sample_ensemble_count (r : Except PyError SampleOutput) : Nat :=
  match r with
  | Except.ok o => (ensemble_events o.trace).length
  | Except.error _ => 0

/-- Number of retained draws a sample call stored. -/
def sample_store_count (r : Except PyError SampleOutput) : Nat :=
  match r with
  | Except.ok o => (store_events o.trace).length
  | Except.error _ => 0

theorem predict_vec_length (f : Forest) (n : Nat) : (f.predict_vec n).length = n := by
  unfold Forest.predict_vec
  simp

theorem run_iter_trace (vd : ValidData) (cfg : SamplerConfig) (kidx : List Nat)
    (st : LoopState) (i : Nat) :
    (run_iter vd cfg kidx st i).trace = st.trace ++ iter_events vd cfg kidx st i := by
  cases hk : iter_keep kidx i <;> simp only [run_iter, hk] <;> rfl

theorem iter_slot1_fresh (vd : ValidData) (cfg : SamplerConfig) (st : LoopState) (i : Nat)
    (hlen : (get_auxiliary_data_array st.aux 1).length = vd.nTrain) :
    iter_slot1 vd cfg st i = iter_preds vd cfg st i := by
  unfold iter_slot1
  refine write_dim_loop_exact _ _ _ ?_
  rw [hlen]
  unfold iter_preds
  rw [predict_vec_length]

theorem ensemble_events_append (a b : List Event) :
    ensemble_events (a ++ b) = ensemble_events a ++ ensemble_events b := by
  unfold ensemble_events
  rw [List.filterMap_append]

theorem store_events_append (a b : List Event) :
    store_events (a ++ b) = store_events a ++ store_events b := by
  unfold store_events
  rw [List.filterMap_append]

theorem ensemble_events_iter (vd : ValidData) (cfg : SamplerConfig) (kidx : List Nat)
    (st : LoopState) (i : Nat) :
    ensemble_events (iter_events vd cfg kidx st i) =
      [(iter_mode cfg i, iter_keep kidx i)] := by
  unfold iter_events ensemble_events
  cases hk : iter_keep kidx i <;> simp [hk]

theorem store_events_iter (vd : ValidData) (cfg : SamplerConfig) (kidx : List Nat)
    (st : LoopState) (i : Nat) :
    store_events (iter_events vd cfg kidx st i) =
      (if iter_keep kidx i then [((iter_counter kidx st i).toNat, i)] else []) := by
  unfold iter_events store_events
  cases hk : iter_keep kidx i <;> simp [hk]

theorem loop_ensemble_events (vd : ValidData) (cfg : SamplerConfig) (kidx : List Nat) :
    ∀ (iters : List Nat) (st : LoopState),
      ensemble_events (loop_iters vd cfg kidx st iters).trace =
        ensemble_events st.trace ++
          iters.map (fun i => (iter_mode cfg i, iter_keep kidx i)) := by
  intro iters
  induction iters with
  | nil => intro st; simp [loop_iters]
  | cons i rest ih =>
      intro st
      show ensemble_events (loop_iters vd cfg kidx (run_iter vd cfg kidx st i) rest).trace = _
      rw [ih, run_iter_trace, ensemble_events_append, ensemble_events_iter]
      simp

/-- C3: within every iteration of sample, the emitted steps are exactly,
in order: one ensemble update, the rewrite of the forest predictions into
auxiliary dimension 1, the latent update, the gamma update, the
cumulative-exp-sum refresh, and (only if the iteration is kept) the copy
into the sample containers; moreover the latent step reads exactly the
predictions produced by this same iteration's ensemble update, never a
stale value. -/
theorem claim_C3_iteration_order (vd : ValidData) (cfg : SamplerConfig) (kidx : List Nat)
    (st : LoopState) (i : Nat)
    (hlen : (get_auxiliary_data_array st.aux 1).length = vd.nTrain) :
    (run_iter vd cfg kidx st i).trace = st.trace ++
      ([Event.ensemble_update (iter_mode cfg i) (iter_keep kidx i),
        Event.pred_write (iter_preds vd cfg st i),
        Event.latent_step (iter_preds vd cfg st i),
        Event.gamma_step, Event.cum_exp_step] ++
       (if iter_keep kidx i then
         [Event.store_draw (iter_counter kidx st i).toNat i] else [])) := by
  rw [run_iter_trace]
  unfold iter_events
  rw [iter_slot1_fresh vd cfg st i hlen]

/-- Concrete data for the C3 witness: two training observations with
outcomes 0 and 1. -/
def w3_vd : ValidData :=
  { nTrain := 2, nTest := 0, hasTest := false, numLevels := 2, yVals := [0, 1] }

/-- Concrete configuration for the C3 witness. -/
def w3_cfg : SamplerConfig :=
  { nTrees := 1, numGfr := 1, numBurnin := 1, numMcmc := 2, nThin := 1,
    alphaGamma := 2, betaGamma := 2, seed := 3, numThreads := 1 }

theorem claim_C3_witness :
    (run_iter w3_vd w3_cfg (keep_indices w3_cfg) (initial_state w3_vd w3_cfg) 0).trace =
      (initial_state w3_vd w3_cfg).trace ++
      ([Event.ensemble_update (iter_mode w3_cfg 0)
          (iter_keep (keep_indices w3_cfg) 0),
        Event.pred_write (iter_preds w3_vd w3_cfg (initial_state w3_vd w3_cfg) 0),
        Event.latent_step (iter_preds w3_vd w3_cfg (initial_state w3_vd w3_cfg) 0),
        Event.gamma_step, Event.cum_exp_step] ++
       (if iter_keep (keep_indices w3_cfg) 0 then
         [Event.store_draw
           (iter_counter (keep_indices w3_cfg) (initial_state w3_vd w3_cfg) 0).toNat 0]
        else [])) :=
  claim_C3_iteration_order w3_vd w3_cfg (keep_indices w3_cfg)
    (initial_state w3_vd w3_cfg) 0 (by decide)

/-- C4: a completed sample call runs exactly num_gfr + num_burnin +
num_mcmc iterations; each iteration invokes the ensemble sampler exactly
once, in warm-start mode precisely when i < num_gfr and in standard
Metropolis-Hastings mode otherwise, and passes a persist flag equal to
membership of i in keep_idx. -/
theorem claim_C4_phase_schedule (X : NpMatrix) (y : NpVector) (Xt : Option NpMatrix)
    (cfg : SamplerConfig) (out : SampleOutput)
    (h : CloglogOrdinalBARTModel.sample X y Xt cfg = Except.ok out) :
    ensemble_events out.trace =
      (List.range (cfg.numGfr + cfg.numBurnin + cfg.numMcmc)).map
        (fun i => ((if i < cfg.numGfr then PhaseMode.warmstart else PhaseMode.mh),
          decide (i ∈ out.keep_idx))) := by
  unfold CloglogOrdinalBARTModel.sample at h
  cases hv : validateInputs X y Xt with
  | error e => rw [hv] at h; exact absurd h (by simp)
  | ok vd =>
      rw [hv] at h
      have hout : out.trace =
          (chain_state vd cfg (cfg.numGfr + cfg.numBurnin + cfg.numMcmc)).trace ∧
          out.keep_idx = keep_indices cfg := by
        cases h
        exact ⟨rfl, rfl⟩
      rw [hout.1, hout.2]
      unfold chain_state
      rw [loop_ensemble_events]
      have : ensemble_events (initial_state vd cfg).trace = [] := rfl
      rw [this, List.nil_append]
      apply List.map_congr_left
      intro i _
      have hmode : iter_mode cfg i =
          (if i < cfg.numGfr then PhaseMode.warmstart else PhaseMode.mh) := by
        unfold iter_mode iter_flag
        rcases Nat.lt_or_ge i cfg.numGfr with hi | hi
        · have h1 : ¬ ((i : Int) > (cfg.numGfr : Int) - 1) := by omega
          simp [hi, h1]
        · have h1 : ((i : Int) > (cfg.numGfr : Int) - 1) := by omega
          simp [Nat.not_lt.mpr hi, h1]
      rw [hmode]
      rfl

theorem npArange_bounds (start stop step x : Nat) (hx : x ∈ npArange start stop step) :
    start ≤ x ∧ x < stop := by
  unfold npArange at hx
  rcases List.mem_map.mp hx with ⟨j, hj, rfl⟩
  have hj2 := List.mem_range.mp hj
  refine ⟨Nat.le_add_right _ _, ?_⟩
  rcases Nat.eq_zero_or_pos step with h0 | h0
  · rw [h0, Nat.div_zero] at hj2
    omega
  · have h1 : j + 1 ≤ (stop - start + step - 1) / step := hj2
    have h2 : (j + 1) * step ≤ stop - start + step - 1 :=
      (Nat.le_div_iff_mul_le h0).mp h1
    rw [Nat.succ_mul] at h2
    omega

theorem npArange_sorted (start stop step : Nat) :
    (npArange start stop step).Pairwise (· < ·) := by
  rcases Nat.eq_zero_or_pos step with h0 | h0
  · subst h0
    unfold npArange
    rw [Nat.div_zero]
    exact List.Pairwise.nil
  · unfold npArange
    refine List.Pairwise.map _ ?_ (List.pairwise_lt_range _)
    intro a b hab
    have h2 : a * step < b * step := mul_lt_mul_of_pos_right hab h0
    omega

theorem npArange_empty_of_eq (start step : Nat) : npArange start start step = [] := by
  unfold npArange
  have h1 : start - start = 0 := Nat.sub_self start
  rw [h1]
  rcases Nat.eq_zero_or_pos step with h0 | h0
  · rw [h0]
    rfl
  · rw [Nat.zero_add, Nat.div_eq_of_lt (by omega)]
    rfl

theorem range_filter_mem_eq (T : Nat) (l : List Nat)
    (hs : l.Pairwise (· < ·)) (hb : ∀ x ∈ l, x < T) :
    (List.range T).filter (fun i => decide (i ∈ l)) = l := by
  have hnd_l : l.Nodup := hs.imp (fun h => Nat.ne_of_lt h)
  have hnd_f : ((List.range T).filter (fun i => decide (i ∈ l))).Nodup :=
    (List.nodup_range T).filter _
  have hmem : ∀ x, x ∈ (List.range T).filter (fun i => decide (i ∈ l)) ↔ x ∈ l := by
    intro x
    rw [List.mem_filter]
    constructor
    · intro hx
      exact of_decide_eq_true hx.2
    · intro hx
      exact ⟨List.mem_range.mpr (hb x hx), decide_eq_true hx⟩
  have hperm : List.Perm ((List.range T).filter (fun i => decide (i ∈ l))) l := by
    apply List.perm_of_nodup_nodup_toFinset_eq hnd_f hnd_l
    apply Finset.ext
    intro a
    rw [List.mem_toFinset, List.mem_toFinset]
    exact hmem a
  refine List.eq_of_perm_of_sorted hperm ?_ hs
  exact (List.pairwise_lt_range T).filter _

theorem getD_set_self_gen {α : Type} (c : List α) (idx : Nat) (x dflt : α)
    (h : idx < c.length) : (c.set idx x).getD idx dflt = x := by
  rw [List.getD_eq_getElem?_getD, List.getElem?_set_self (by simpa using h)]
  rfl

theorem getD_set_other_gen {α : Type} (c : List α) (idx j : Nat) (x dflt : α)
    (h : j ≠ idx) : (c.set idx x).getD j dflt = c.getD j dflt := by
  rw [List.getD_eq_getElem?_getD, List.getElem?_set_ne (Ne.symm h),
    List.getD_eq_getElem?_getD]

/-- Invariant of the retention state: after n kept iterations the counter
reads n - 1, every sample container still has its preallocated n_keep
columns, and exactly the first n columns of each container are filled. -/
structure RetentionWF (st : LoopState) (nK n : Nat) : Prop where
  counter : st.sample_counter = (n : Int) - 1
  len_train : st.forest_pred_train.length = nK
  len_gamma : st.gamma_samples.length = nK
  len_latent : st.latent_samples.length = nK
  len_test : ∀ c, st.forest_pred_test = some c → c.length = nK
  fill_train : ∀ j, j < nK → ((st.forest_pred_train.getD j none).isSome ↔ j < n)
  fill_gamma : ∀ j, j < nK → ((st.gamma_samples.getD j none).isSome ↔ j < n)
  fill_latent : ∀ j, j < nK → ((st.latent_samples.getD j none).isSome ↔ j < n)
  fill_test : ∀ c, st.forest_pred_test = some c →
    ∀ j, j < nK → ((c.getD j none).isSome ↔ j < n)

theorem fill_after_set (c : List (Option (List ℚ))) (nK n : Nat) (v : List ℚ)
    (hlen : c.length = nK) (hn : n < nK)
    (hfill : ∀ j, j < nK → ((c.getD j none).isSome ↔ j < n)) :
    ∀ j, j < nK → (((c.set n (some v)).getD j none).isSome ↔ j < n + 1) := by
  intro j hj
  rcases eq_or_ne j n with rfl | hne
  · rw [getD_set_self_gen _ _ _ _ (by omega)]
    simp
  · rw [getD_set_other_gen _ _ _ _ _ hne, hfill j hj]
    omega

theorem run_iter_counter_proj (vd : ValidData) (cfg : SamplerConfig) (kidx : List Nat)
    (st : LoopState) (i : Nat) :
    (run_iter vd cfg kidx st i).sample_counter = iter_counter kidx st i := by
  cases hk : iter_keep kidx i <;> simp only [run_iter, hk] <;> rfl

theorem run_iter_train_proj (vd : ValidData) (cfg : SamplerConfig) (kidx : List Nat)
    (st : LoopState) (i : Nat) :
    (run_iter vd cfg kidx st i).forest_pred_train =
      (if iter_keep kidx i then
        st.forest_pred_train.set (iter_counter kidx st i).toNat
          (some (iter_preds vd cfg st i))
       else st.forest_pred_train) := by
  cases hk : iter_keep kidx i <;> simp only [run_iter, hk] <;> rfl

theorem run_iter_test_proj (vd : ValidData) (cfg : SamplerConfig) (kidx : List Nat)
    (st : LoopState) (i : Nat) :
    (run_iter vd cfg kidx st i).forest_pred_test =
      (if iter_keep kidx i then
        st.forest_pred_test.map (fun c => c.set (iter_counter kidx st i).toNat
          (some ((iter_forest cfg st i).predict_vec vd.nTest)))
       else st.forest_pred_test) := by
  cases hk : iter_keep kidx i <;> simp only [run_iter, hk] <;> rfl

theorem run_iter_gamma_proj (vd : ValidData) (cfg : SamplerConfig) (kidx : List Nat)
    (st : LoopState) (i : Nat) :
    (run_iter vd cfg kidx st i).gamma_samples =
      (if iter_keep kidx i then
        st.gamma_samples.set (iter_counter kidx st i).toNat
          (some (get_auxiliary_data_array (run_iter vd cfg kidx st i).aux 2))
       else st.gamma_samples) := by
  cases hk : iter_keep kidx i <;> simp only [run_iter, hk] <;> rfl

theorem run_iter_latent_proj (vd : ValidData) (cfg : SamplerConfig) (kidx : List Nat)
    (st : LoopState) (i : Nat) :
    (run_iter vd cfg kidx st i).latent_samples =
      (if iter_keep kidx i then
        st.latent_samples.set (iter_counter kidx st i).toNat
          (some (get_auxiliary_data_array (run_iter vd cfg kidx st i).aux 0))
       else st.latent_samples) := by
  cases hk : iter_keep kidx i <;> simp only [run_iter, hk] <;> rfl

theorem run_iter_aux_proj (vd : ValidData) (cfg : SamplerConfig) (kidx : List Nat)
    (st : LoopState) (i : Nat) :
    (run_iter vd cfg kidx st i).aux =
      update_cumulative_exp_sums
        (update_gamma_params
          (update_latent_variables (vd.yVals.map Int.toNat) vd.numLevels vd.nTrain
            (write_dim_loop st.aux 1 (iter_preds vd cfg st i) 0)
            (forest_sampler_step st.active_forest st.rng (iter_flag cfg i)).2).1
          cfg.alphaGamma cfg.betaGamma 0
          (update_latent_variables (vd.yVals.map Int.toNat) vd.numLevels vd.nTrain
            (write_dim_loop st.aux 1 (iter_preds vd cfg st i) 0)
            (forest_sampler_step st.active_forest st.rng (iter_flag cfg i)).2).2).1 := by
  cases hk : iter_keep kidx i <;> simp only [run_iter, hk] <;> rfl

theorem run_iter_retention (vd : ValidData) (cfg : SamplerConfig) (kidx : List Nat)
    (st : LoopState) (i : Nat) (nK n : Nat)
    (hwf : RetentionWF st nK n)
    (hbound : iter_keep kidx i = true → n < nK) :
    RetentionWF (run_iter vd cfg kidx st i) nK
      (if iter_keep kidx i then n + 1 else n) ∧
    store_events (run_iter vd cfg kidx st i).trace =
      store_events st.trace ++ (if iter_keep kidx i then [(n, i)] else []) := by
  have hcounterKeep : iter_keep kidx i = true →
      iter_counter kidx st i = (n : Int) := by
    intro hk
    unfold iter_counter
    rw [hk, hwf.counter]
    simp
  cases hk : iter_keep kidx i
  · have hc := run_iter_counter_proj vd cfg kidx st i
    have htr := run_iter_train_proj vd cfg kidx st i
    have hte := run_iter_test_proj vd cfg kidx st i
    have hga := run_iter_gamma_proj vd cfg kidx st i
    have hla := run_iter_latent_proj vd cfg kidx st i
    rw [hk] at htr hte hga hla
    simp only [Bool.false_eq_true, if_false] at htr hte hga hla
    constructor
    · refine ⟨?_, ?_, ?_, ?_, ?_, ?_, ?_, ?_, ?_⟩
      · rw [hc]
        unfold iter_counter
        rw [hk, hwf.counter]
        simp
      · rw [htr]; exact hwf.len_train
      · rw [hga]; exact hwf.len_gamma
      · rw [hla]; exact hwf.len_latent
      · rw [hte]; exact hwf.len_test
      · rw [htr]; exact hwf.fill_train
      · rw [hga]; exact hwf.fill_gamma
      · rw [hla]; exact hwf.fill_latent
      · rw [hte]; exact hwf.fill_test
    · rw [run_iter_trace, store_events_append, store_events_iter]
      rw [hk]
      simp
  · have hn : n < nK := hbound hk
    have hcK : iter_counter kidx st i = (n : Int) := hcounterKeep hk
    have hcKn : (iter_counter kidx st i).toNat = n := by rw [hcK]; simp
    have hc := run_iter_counter_proj vd cfg kidx st i
    have htr := run_iter_train_proj vd cfg kidx st i
    have hte := run_iter_test_proj vd cfg kidx st i
    have hga := run_iter_gamma_proj vd cfg kidx st i
    have hla := run_iter_latent_proj vd cfg kidx st i
    rw [hk] at htr hte hga hla
    simp only [if_true] at htr hte hga hla
    constructor
    · refine ⟨?_, ?_, ?_, ?_, ?_, ?_, ?_, ?_, ?_⟩
      · rw [hc, hcK]
        simp
      · rw [htr]; simp [hwf.len_train]
      · rw [hga]; simp [hwf.len_gamma]
      · rw [hla]; simp [hwf.len_latent]
      · intro c hc2
        rw [hte] at hc2
        cases hcase : st.forest_pred_test with
        | none => rw [hcase] at hc2; simp at hc2
        | some c0 =>
            rw [hcase] at hc2
            simp only [Option.map_some'] at hc2
            cases hc2
            simp [hwf.len_test c0 hcase]
      · rw [htr, hcKn]
        exact fill_after_set _ _ _ _ hwf.len_train hn hwf.fill_train
      · rw [hga, hcKn]
        exact fill_after_set _ _ _ _ hwf.len_gamma hn hwf.fill_gamma
      · rw [hla, hcKn]
        exact fill_after_set _ _ _ _ hwf.len_latent hn hwf.fill_latent
      · intro c hc2
        rw [hte] at hc2
        cases hcase : st.forest_pred_test with
        | none => rw [hcase] at hc2; simp at hc2
        | some c0 =>
            rw [hcase] at hc2
            simp only [Option.map_some'] at hc2
            cases hc2
            rw [hcKn]
            exact fill_after_set _ _ _ _ (hwf.len_test c0 hcase) hn
              (hwf.fill_test c0 hcase)
    · rw [run_iter_trace, store_events_append, store_events_iter]
      rw [hk, hcKn]

theorem loop_retention (vd : ValidData) (cfg : SamplerConfig) (kidx : List Nat) :
    ∀ (iters : List Nat) (st : LoopState) (nK n : Nat),
      RetentionWF st nK n →
      n + (iters.filter (fun i => iter_keep kidx i)).length ≤ nK →
      RetentionWF (loop_iters vd cfg kidx st iters) nK
        (n + (iters.filter (fun i => iter_keep kidx i)).length) ∧
      store_events (loop_iters vd cfg kidx st iters).trace =
        store_events st.trace ++
          List.enumFrom n (iters.filter (fun i => iter_keep kidx i)) := by
  intro iters
  induction iters with
  | nil =>
      intro st nK n hwf _
      simpa using ⟨hwf, rfl⟩
  | cons i rest ih =>
      intro st nK n hwf hbudget
      have hstep := run_iter_retention vd cfg kidx st i nK n hwf
      cases hk : iter_keep kidx i
      · have hfilter : (i :: rest).filter (fun i => iter_keep kidx i) =
            rest.filter (fun i => iter_keep kidx i) := by
          simp [List.filter_cons, hk]
        rw [hfilter] at hbudget ⊢
        have hstep2 := hstep (by intro h2; rw [hk] at h2; cases h2)
        rw [hk] at hstep2
        simp only [Bool.false_eq_true, if_false] at hstep2
        have hrest := ih (run_iter vd cfg kidx st i) nK n hstep2.1 hbudget
        refine ⟨hrest.1, ?_⟩
        show store_events (loop_iters vd cfg kidx (run_iter vd cfg kidx st i) rest).trace = _
        rw [hrest.2, hstep2.2]
        simp
      · have hfilter : (i :: rest).filter (fun i => iter_keep kidx i) =
            i :: rest.filter (fun i => iter_keep kidx i) := by
          simp [List.filter_cons, hk]
        rw [hfilter] at hbudget ⊢
        have hstep2 := hstep (fun _ => by simp at hbudget; omega)
        rw [hk] at hstep2
        simp only [if_true] at hstep2
        have hrest := ih (run_iter vd cfg kidx st i) nK (n + 1) hstep2.1
          (by simp at hbudget ⊢; omega)
        constructor
        · have := hrest.1
          have harith : n + 1 + (rest.filter (fun i => iter_keep kidx i)).length =
              n + (i :: rest.filter (fun i => iter_keep kidx i)).length := by
            simp
            omega
          rw [harith] at this
          exact this
        · show store_events (loop_iters vd cfg kidx (run_iter vd cfg kidx st i) rest).trace = _
          rw [hrest.2, hstep2.2]
          rw [List.enumFrom]
          simp

theorem getD_replicate_none {α : Type} (nK j : Nat) :
    ((List.replicate nK (none : Option α)).getD j none) = none := by
  rw [List.getD_eq_getElem?_getD]
  rcases Nat.lt_or_ge j nK with hj | hj
  · rw [List.getElem?_replicate]
    simp [Nat.lt_of_lt_of_le hj (Nat.le_refl nK), hj]
  · rw [List.getElem?_eq_none (by simpa using hj)]
    rfl

theorem initial_retentionWF (vd : ValidData) (cfg : SamplerConfig) :
    RetentionWF (initial_state vd cfg) (keep_indices cfg).length 0 := by
  refine ⟨?_, ?_, ?_, ?_, ?_, ?_, ?_, ?_, ?_⟩
  · simp [initial_state]
  · simp [initial_state]
  · simp [initial_state]
  · simp [initial_state]
  · intro c hc
    unfold initial_state at hc
    by_cases ht : vd.hasTest
    · simp only [ht, if_true] at hc
      cases hc
      simp
    · simp [ht] at hc
  · intro j hj
    simp [initial_state, getD_replicate_none]
  · intro j hj
    simp [initial_state, getD_replicate_none]
  · intro j hj
    simp [initial_state, getD_replicate_none]
  · intro c hc j hj
    unfold initial_state at hc
    by_cases ht : vd.hasTest
    · simp only [ht, if_true] at hc
      cases hc
      simp [getD_replicate_none]
    · simp [ht] at hc

theorem range_filter_keep (cfg : SamplerConfig) :
    (List.range (cfg.numGfr + cfg.numBurnin + cfg.numMcmc)).filter
        (fun i => iter_keep (keep_indices cfg) i) = keep_indices cfg := by
  have h1 : (fun i => iter_keep (keep_indices cfg) i) =
      (fun i => decide (i ∈ keep_indices cfg)) := rfl
  rw [h1]
  apply range_filter_mem_eq
  · exact npArange_sorted _ _ _
  · intro x hx
    exact (npArange_bounds _ _ _ x hx).2

theorem sample_ok_inversion (X : NpMatrix) (y : NpVector) (Xt : Option NpMatrix)
    (cfg : SamplerConfig) (out : SampleOutput)
    (h : CloglogOrdinalBARTModel.sample X y Xt cfg = Except.ok out) :
    ∃ vd, validateInputs X y Xt = Except.ok vd ∧
      out = { keep_idx := keep_indices cfg,
              n_keep := (keep_indices cfg).length,
              forest_pred_train := (chain_state vd cfg
                (cfg.numGfr + cfg.numBurnin + cfg.numMcmc)).forest_pred_train,
              forest_pred_test := (chain_state vd cfg
                (cfg.numGfr + cfg.numBurnin + cfg.numMcmc)).forest_pred_test,
              gamma_samples := (chain_state vd cfg
                (cfg.numGfr + cfg.numBurnin + cfg.numMcmc)).gamma_samples,
              latent_samples := (chain_state vd cfg
                (cfg.numGfr + cfg.numBurnin + cfg.numMcmc)).latent_samples,
              trace := (chain_state vd cfg
                (cfg.numGfr + cfg.numBurnin + cfg.numMcmc)).trace,
              final_aux := (chain_state vd cfg
                (cfg.numGfr + cfg.numBurnin + cfg.numMcmc)).aux,
              forest_samples := (chain_state vd cfg
                (cfg.numGfr + cfg.numBurnin + cfg.numMcmc)).forest_samples } := by
  unfold CloglogOrdinalBARTModel.sample at h
  cases hv : validateInputs X y Xt with
  | error e => rw [hv] at h; exact absurd h (by simp)
  | ok vd =>
      rw [hv] at h
      refine ⟨vd, rfl, ?_⟩
      cases h
      rfl

/-- C5: after a completed sample call, keep_idx is the arithmetic
progression from num_gfr + num_burnin up to num_gfr + num_burnin +
num_mcmc stepped by n_thin; the number of retained draws equals
len(keep_idx) exactly; retained column j was written at the j-th kept
iteration, in iteration order with no gaps; and every column below n_keep
of every sample container (the test container included when present) is
filled. -/
theorem claim_C5_retention (X : NpMatrix) (y : NpVector) (Xt : Option NpMatrix)
    (cfg : SamplerConfig) (out : SampleOutput)
    (h : CloglogOrdinalBARTModel.sample X y Xt cfg = Except.ok out) :
    out.keep_idx = npArange (cfg.numGfr + cfg.numBurnin)
        (cfg.numGfr + cfg.numBurnin + cfg.numMcmc) cfg.nThin ∧
    out.n_keep = out.keep_idx.length ∧
    store_events out.trace = List.enumFrom 0 out.keep_idx ∧
    (store_events out.trace).length = out.keep_idx.length ∧
    (∀ j, j < out.n_keep →
      (out.forest_pred_train.getD j none).isSome ∧
      (out.gamma_samples.getD j none).isSome ∧
      (out.latent_samples.getD j none).isSome) ∧
    (∀ c, out.forest_pred_test = some c →
      ∀ j, j < out.n_keep → (c.getD j none).isSome) := by
  rcases sample_ok_inversion X y Xt cfg out h with ⟨vd, hv, rfl⟩
  have hloop := loop_retention vd cfg (keep_indices cfg)
    (List.range (cfg.numGfr + cfg.numBurnin + cfg.numMcmc))
    (initial_state vd cfg) (keep_indices cfg).length 0
    (initial_retentionWF vd cfg)
    (by rw [range_filter_keep]; simp)
  rw [range_filter_keep] at hloop
  simp only [Nat.zero_add] at hloop
  have hwf := hloop.1
  have hst := hloop.2
  refine ⟨rfl, rfl, ?_, ?_, ?_, ?_⟩
  · show store_events (chain_state vd cfg _).trace = _
    unfold chain_state
    rw [hst]
    have : store_events (initial_state vd cfg).trace = [] := rfl
    rw [this, List.nil_append]
  · show (store_events (chain_state vd cfg _).trace).length = _
    unfold chain_state
    rw [hst]
    have : store_events (initial_state vd cfg).trace = [] := rfl
    rw [this, List.nil_append, List.enumFrom_length]
  · intro j hj
    refine ⟨?_, ?_, ?_⟩
    · exact (hwf.fill_train j hj).mpr hj
    · exact (hwf.fill_gamma j hj).mpr hj
    · exact (hwf.fill_latent j hj).mpr hj
  · intro c hc j hj
    exact (hwf.fill_test c hc j hj).mpr hj

theorem overwriteFrom_length (vals : List ℚ) :
    ∀ (l : List ℚ) (k : Nat), (overwriteFrom l k vals).length = l.length := by
  induction vals with
  | nil => intro l k; rfl
  | cons v rest ih =>
      intro l k
      show (overwriteFrom (l.set k v) (k + 1) rest).length = l.length
      rw [ih, List.length_set]

theorem update_cum_other (s : AuxStore) (d : Nat) (h : d ≠ 3) :
    get_auxiliary_data_array (update_cumulative_exp_sums s) d =
      get_auxiliary_data_array s d :=
  get_array_replaceDim_ne s 3 d _ h

theorem update_cum_length (s : AuxStore) :
    (update_cumulative_exp_sums s).length = s.length := by
  unfold update_cumulative_exp_sums
  simp

theorem update_cum_dim3 (s : AuxStore) (h3 : 3 < s.length) :
    get_auxiliary_data_array (update_cumulative_exp_sums s) 3 =
      cumulativeExpSums (get_auxiliary_data_array s 2)
        (get_auxiliary_data_array s 3).length :=
  get_array_replaceDim_eq s 3 _ h3

theorem get_value_set_other (s : AuxStore) (d : Nat) (i2 : Nat) (v : ℚ) (i : Nat)
    (h : i ≠ i2) :
    get_auxiliary_data_value (set_auxiliary_data_value s d (i2 : Int) v) d i =
      get_auxiliary_data_value s d i := by
  unfold get_auxiliary_data_value
  rcases Nat.lt_or_ge d s.length with hd | hd
  · rw [get_array_set_eq _ _ _ _ hd]
    unfold slotWrite
    rw [if_pos (Int.ofNat_nonneg i2)]
    have h2 : ((i2 : Int)).toNat = i2 := by simp
    rw [h2]
    exact getD_set_other_gen _ _ _ _ _ h
  · unfold set_auxiliary_data_value
    rw [List.set_eq_of_length_le hd]

theorem get_value_set_self (s : AuxStore) (d i : Nat) (v : ℚ)
    (hd : d < s.length) (hi : i < (get_auxiliary_data_array s d).length) :
    get_auxiliary_data_value (set_auxiliary_data_value s d (i : Int) v) d i = v := by
  unfold get_auxiliary_data_value
  rw [get_array_set_eq _ _ _ _ hd]
  unfold slotWrite
  rw [if_pos (Int.ofNat_nonneg i)]
  have h2 : ((i : Int)).toNat = i := by simp
  rw [h2]
  exact getD_set_self_gen _ _ _ _ hi

theorem getD_set_cases {α : Type} (l : List α) (m k : Nat) (v dflt : α) :
    (l.set m v).getD k dflt = v ∨ (l.set m v).getD k dflt = l.getD k dflt := by
  rcases eq_or_ne k m with rfl | hne
  · rcases Nat.lt_or_ge k l.length with hk | hk
    · left
      exact getD_set_self_gen _ _ _ _ hk
    · right
      rw [List.set_eq_of_length_le hk]
  · right
    exact getD_set_other_gen _ _ _ _ _ hne

/-- The auxiliary-store shape invariant that holds at every iteration
boundary of the chain: four dimensions of the allocated lengths, with
dimension 3 equal to the cumulative exp transform of dimension 2. -/
structure AuxWF (vd : ValidData) (s : AuxStore) : Prop where
  store_len : s.length = 4
  len0 : (get_auxiliary_data_array s 0).length = vd.nTrain
  len1 : (get_auxiliary_data_array s 1).length = vd.nTrain
  len2 : (get_auxiliary_data_array s 2).length = vd.numLevels - 1
  dim3 : get_auxiliary_data_array s 3 =
    cumulativeExpSums (get_auxiliary_data_array s 2) vd.numLevels

theorem gamma_fold_store_length (l : List Int) :
    ∀ (s : AuxStore),
      (l.foldl (fun acc i => set_auxiliary_data_value acc 2 (i - 1) 0) s).length =
        s.length := by
  induction l with
  | nil => intro s; rfl
  | cons i rest ih =>
      intro s
      show (rest.foldl _ (set_auxiliary_data_value s 2 (i - 1) 0)).length = _
      rw [ih, aux_length_set]

theorem gamma_fold_other (l : List Int) :
    ∀ (s : AuxStore) (d : Nat), d ≠ 2 →
      get_auxiliary_data_array
          (l.foldl (fun acc i => set_auxiliary_data_value acc 2 (i - 1) 0) s) d =
        get_auxiliary_data_array s d := by
  induction l with
  | nil => intro s d _; rfl
  | cons i rest ih =>
      intro s d hd
      show get_auxiliary_data_array
        (rest.foldl _ (set_auxiliary_data_value s 2 (i - 1) 0)) d = _
      rw [ih _ _ hd, get_array_set_ne _ _ _ _ _ hd]

theorem gamma_fold_dim2_length (l : List Int) :
    ∀ (s : AuxStore),
      (get_auxiliary_data_array
          (l.foldl (fun acc i => set_auxiliary_data_value acc 2 (i - 1) 0) s)
          2).length =
        (get_auxiliary_data_array s 2).length := by
  induction l with
  | nil => intro s; rfl
  | cons i rest ih =>
      intro s
      show (get_auxiliary_data_array
        (rest.foldl _ (set_auxiliary_data_value s 2 (i - 1) 0)) 2).length = _
      rw [ih]
      rcases Nat.lt_or_ge 2 s.length with hd | hd
      · rw [get_array_set_eq _ _ _ _ hd, slotWrite_length]
      · unfold set_auxiliary_data_value
        rw [List.set_eq_of_length_le hd]

theorem gamma_fold_dim2_zero (l : List Int) :
    ∀ (s : AuxStore), (∀ k, get_auxiliary_data_value s 2 k = 0) →
      ∀ k, get_auxiliary_data_value
          (l.foldl (fun acc i => set_auxiliary_data_value acc 2 (i - 1) 0) s)
          2 k = 0 := by
  induction l with
  | nil => intro s h k; exact h k
  | cons i rest ih =>
      intro s h k
      show get_auxiliary_data_value
        (rest.foldl _ (set_auxiliary_data_value s 2 (i - 1) 0)) 2 k = 0
      refine ih _ ?_ k
      intro k2
      unfold get_auxiliary_data_value
      rcases Nat.lt_or_ge 2 s.length with hd | hd
      · rw [get_array_set_eq _ _ _ _ hd]
        unfold slotWrite
        split
        · rcases getD_set_cases (get_auxiliary_data_array s 2)
            (i - 1).toNat k2 0 0 with hc | hc
          · rw [hc]
          · rw [hc]
            exact h k2
        · exact h k2
      · unfold set_auxiliary_data_value
        rw [List.set_eq_of_length_le hd]
        exact h k2

theorem init_gamma_loop_store_length (s : AuxStore) (m : Nat) :
    (init_gamma_loop s m).length = s.length := by
  unfold init_gamma_loop
  exact gamma_fold_store_length _ s

theorem init_gamma_loop_other (s : AuxStore) (m : Nat) (d : Nat) (hd : d ≠ 2) :
    get_auxiliary_data_array (init_gamma_loop s m) d = get_auxiliary_data_array s d := by
  unfold init_gamma_loop
  exact gamma_fold_other _ s d hd

theorem init_gamma_loop_dim2_length (s : AuxStore) (m : Nat) :
    (get_auxiliary_data_array (init_gamma_loop s m) 2).length =
      (get_auxiliary_data_array s 2).length := by
  unfold init_gamma_loop
  exact gamma_fold_dim2_length _ s

theorem init_gamma_loop_dim2_zero (s : AuxStore) (m : Nat)
    (h : ∀ k, get_auxiliary_data_value s 2 k = 0) :
    ∀ k, get_auxiliary_data_value (init_gamma_loop s m) 2 k = 0 := by
  unfold init_gamma_loop
  exact gamma_fold_dim2_zero _ s h

/-- The store after the four add_auxiliary_dimension calls of fit start
(source lines 239-250). -/
def init_base (n K : Nat) : AuxStore :=
  [List.replicate n 0, List.replicate n 0,
   List.replicate (K - 1) (0 : ℚ), List.replicate K 0]

/-- The store after the gamma init loop (source lines 252-255). -/
def init_G (n K : Nat) : AuxStore := init_gamma_loop (init_base n K) (K - 1)

/-- The store after the first cumulative refresh (source line 259). -/
def init_U (n K : Nat) : AuxStore := update_cumulative_exp_sums (init_G n K)

/-- The store after the forest-prediction zero loop (source lines 261-263). -/
def init_W1 (n K : Nat) : AuxStore :=
  write_dim_loop (init_U n K) 1 (List.replicate n 0) 0

theorem init_aux_store_decomp (n K : Nat) :
    init_aux_store n K = write_dim_loop (init_W1 n K) 0 (List.replicate n 0) 0 := rfl

theorem getD_replicate_zero (m k : Nat) : (List.replicate m (0 : ℚ)).getD k 0 = 0 := by
  rw [List.getD_eq_getElem?_getD]
  rcases Nat.lt_or_ge k m with hk | hk
  · rw [List.getElem?_replicate]
    simp [hk]
  · rw [List.getElem?_eq_none (by simpa using hk)]
    rfl

theorem init_G_facts (n K : Nat) :
    (init_G n K).length = 4 ∧
    get_auxiliary_data_array (init_G n K) 0 = List.replicate n 0 ∧
    get_auxiliary_data_array (init_G n K) 1 = List.replicate n 0 ∧
    (get_auxiliary_data_array (init_G n K) 2).length = K - 1 ∧
    (∀ k, get_auxiliary_data_value (init_G n K) 2 k = 0) ∧
    get_auxiliary_data_array (init_G n K) 3 = List.replicate K 0 := by
  unfold init_G
  refine ⟨?_, ?_, ?_, ?_, ?_, ?_⟩
  · rw [init_gamma_loop_store_length]
    rfl
  · rw [init_gamma_loop_other _ _ 0 (by omega)]
    rfl
  · rw [init_gamma_loop_other _ _ 1 (by omega)]
    rfl
  · rw [init_gamma_loop_dim2_length]
    simp [init_base, get_auxiliary_data_array]
  · apply init_gamma_loop_dim2_zero
    intro k
    unfold get_auxiliary_data_value
    have h2 : get_auxiliary_data_array (init_base n K) 2 =
        List.replicate (K - 1) (0 : ℚ) := rfl
    rw [h2, getD_replicate_zero]
  · rw [init_gamma_loop_other _ _ 3 (by omega)]
    rfl

theorem init_U_facts (n K : Nat) :
    (init_U n K).length = 4 ∧
    get_auxiliary_data_array (init_U n K) 0 = List.replicate n 0 ∧
    get_auxiliary_data_array (init_U n K) 1 = List.replicate n 0 ∧
    get_auxiliary_data_array (init_U n K) 2 =
      get_auxiliary_data_array (init_G n K) 2 ∧
    get_auxiliary_data_array (init_U n K) 3 =
      cumulativeExpSums (get_auxiliary_data_array (init_G n K) 2) K := by
  obtain ⟨hlen, h0, h1, h2len, _, h3⟩ := init_G_facts n K
  unfold init_U
  refine ⟨?_, ?_, ?_, ?_, ?_⟩
  · rw [update_cum_length, hlen]
  · rw [update_cum_other _ _ (by omega), h0]
  · rw [update_cum_other _ _ (by omega), h1]
  · exact update_cum_other _ _ (by omega)
  · rw [update_cum_dim3 _ (by omega), h3]
    simp

theorem init_W1_facts (n K : Nat) :
    (init_W1 n K).length = 4 ∧
    get_auxiliary_data_array (init_W1 n K) 0 = List.replicate n 0 ∧
    get_auxiliary_data_array (init_W1 n K) 1 = List.replicate n 0 ∧
    get_auxiliary_data_array (init_W1 n K) 2 =
      get_auxiliary_data_array (init_G n K) 2 ∧
    get_auxiliary_data_array (init_W1 n K) 3 =
      cumulativeExpSums (get_auxiliary_data_array (init_G n K) 2) K := by
  obtain ⟨hlen, h0, h1, h2, h3⟩ := init_U_facts n K
  unfold init_W1
  refine ⟨?_, ?_, ?_, ?_, ?_⟩
  · rw [write_dim_loop_length, hlen]
  · rw [write_dim_loop_other _ _ _ 0 _ (by omega), h0]
  · apply write_dim_loop_exact
    rw [h1]
  · rw [write_dim_loop_other _ _ _ 2 _ (by omega)]
    exact h2
  · rw [write_dim_loop_other _ _ _ 3 _ (by omega)]
    exact h3

theorem init_aux_facts (n K : Nat) :
    (init_aux_store n K).length = 4 ∧
    get_auxiliary_data_array (init_aux_store n K) 0 = List.replicate n 0 ∧
    get_auxiliary_data_array (init_aux_store n K) 1 = List.replicate n 0 ∧
    (get_auxiliary_data_array (init_aux_store n K) 2).length = K - 1 ∧
    (∀ k, get_auxiliary_data_value (init_aux_store n K) 2 k = 0) ∧
    get_auxiliary_data_array (init_aux_store n K) 3 =
      cumulativeExpSums (get_auxiliary_data_array (init_aux_store n K) 2) K := by
  obtain ⟨hlen, h0, h1, h2, h3⟩ := init_W1_facts n K
  obtain ⟨_, _, _, hG2len, hG2zero, _⟩ := init_G_facts n K
  rw [init_aux_store_decomp]
  have harr2 : get_auxiliary_data_array
      (write_dim_loop (init_W1 n K) 0 (List.replicate n 0) 0) 2 =
      get_auxiliary_data_array (init_G n K) 2 := by
    rw [write_dim_loop_other _ _ _ 2 _ (by omega)]
    exact h2
  refine ⟨?_, ?_, ?_, ?_, ?_, ?_⟩
  · rw [write_dim_loop_length, hlen]
  · apply write_dim_loop_exact
    rw [h0]
  · rw [write_dim_loop_other _ _ _ 1 _ (by omega), h1]
  · rw [harr2, hG2len]
  · intro k
    unfold get_auxiliary_data_value
    rw [harr2]
    have := hG2zero k
    unfold get_auxiliary_data_value at this
    exact this
  · rw [write_dim_loop_other _ _ _ 3 _ (by omega), h3, harr2]

theorem init_aux_store_auxWF (vd : ValidData) :
    AuxWF vd (init_aux_store vd.nTrain vd.numLevels) := by
  obtain ⟨hlen, h0, h1, h2len, _, h3⟩ := init_aux_facts vd.nTrain vd.numLevels
  refine ⟨hlen, ?_, ?_, h2len, h3⟩
  · rw [h0]
    simp
  · rw [h1]
    simp

/-- C2: at fit start, before the first sampling iteration, every
auxiliary-store slot is zero-initialized: the n_train latent slots
(dimension 0), the n_train forest-prediction slots (dimension 1) and the
K - 1 gamma slots (dimension 2, indices 0 through K - 2) all hold 0, and
each dimension has exactly its allocated number of slots. -/
theorem claim_C2_zero_init (n K : Nat) :
    ((get_auxiliary_data_array (init_aux_store n K) 0).length = n ∧
     ∀ i, i < n → get_auxiliary_data_value (init_aux_store n K) 0 i = 0) ∧
    ((get_auxiliary_data_array (init_aux_store n K) 1).length = n ∧
     ∀ i, i < n → get_auxiliary_data_value (init_aux_store n K) 1 i = 0) ∧
    ((get_auxiliary_data_array (init_aux_store n K) 2).length = K - 1 ∧
     ∀ k, k < K - 1 → get_auxiliary_data_value (init_aux_store n K) 2 k = 0) := by
  obtain ⟨_, h0, h1, h2len, h2zero, _⟩ := init_aux_facts n K
  refine ⟨⟨?_, ?_⟩, ⟨?_, ?_⟩, ⟨h2len, ?_⟩⟩
  · rw [h0]
    simp
  · intro i _
    unfold get_auxiliary_data_value
    rw [h0, getD_replicate_zero]
  · rw [h1]
    simp
  · intro i _
    unfold get_auxiliary_data_value
    rw [h1, getD_replicate_zero]
  · intro k _
    exact h2zero k

theorem claim_C2_witness :
    ((get_auxiliary_data_array (init_aux_store 2 3) 0).length = 2 ∧
     ∀ i, i < 2 → get_auxiliary_data_value (init_aux_store 2 3) 0 i = 0) ∧
    ((get_auxiliary_data_array (init_aux_store 2 3) 1).length = 2 ∧
     ∀ i, i < 2 → get_auxiliary_data_value (init_aux_store 2 3) 1 i = 0) ∧
    ((get_auxiliary_data_array (init_aux_store 2 3) 2).length = 3 - 1 ∧
     ∀ k, k < 3 - 1 → get_auxiliary_data_value (init_aux_store 2 3) 2 k = 0) :=
  claim_C2_zero_init 2 3

/-- Non-negativity and adjacent strict growth of the cumulative cutpoint
array, as read through get_auxiliary_data_value. -/
theorem auxWF_cum_facts (vd : ValidData) (s : AuxStore) (h : AuxWF vd s) :
    (∀ j, 0 ≤ get_auxiliary_data_value s 3 j) ∧
    (∀ k, k + 1 < vd.numLevels →
      get_auxiliary_data_value s 3 k < get_auxiliary_data_value s 3 (k + 1)) := by
  constructor
  · intro j
    unfold get_auxiliary_data_value
    rw [h.dim3]
    exact cumulativeExpSums_nonneg _ _ _
  · intro k hk
    unfold get_auxiliary_data_value
    rw [h.dim3]
    rw [cumulativeExpSums_adjacent _ _ _ hk (by rw [h.len2]; omega)]
    have := expQ_pos ((get_auxiliary_data_array s 2).getD k 0)
    linarith

theorem truncated_exp_draw_pos (u lam ck ckp1 : ℚ) (fin : Bool)
    (hu : 0 < u) (hck : 0 ≤ ck) (hf : fin = true → ck < ckp1) :
    0 < truncated_exp_draw u lam ck ckp1 fin := by
  unfold truncated_exp_draw
  have he := expQ_pos lam
  have h1 : 0 ≤ ck * expQ lam := mul_nonneg hck (le_of_lt he)
  cases fin
  · simp only [Bool.false_eq_true, if_false]
    linarith
  · simp only [if_true]
    have h2 : 0 < (ckp1 - ck) * expQ lam := by
      have := hf rfl
      apply mul_pos
      · linarith
      · exact he
    have h3 : 0 < u * ((ckp1 - ck) * expQ lam) := mul_pos hu h2
    linarith

theorem update_latent_go_untouched (y : List Nat) (K : Nat) (idxs : List Nat) :
    ∀ (s : AuxStore) (rng : Nat) (i : Nat), i ∉ idxs →
      get_auxiliary_data_value (update_latent_go y K idxs s rng).1 0 i =
        get_auxiliary_data_value s 0 i := by
  induction idxs with
  | nil => intro s rng i _; rfl
  | cons i0 rest ih =>
      intro s rng i hi
      have hne : i ≠ i0 := fun hcon => hi (hcon ▸ List.mem_cons_self i0 rest)
      have hrest : i ∉ rest := fun hcon => hi (List.mem_cons_of_mem i0 hcon)
      show get_auxiliary_data_value (update_latent_go y K rest _ _).1 0 i = _
      rw [ih _ _ _ hrest, get_value_set_other _ _ _ _ _ hne]

theorem update_latent_go_pos (y : List Nat) (K : Nat) (idxs : List Nat) :
    ∀ (s : AuxStore) (rng : Nat),
      0 < s.length →
      (∀ j, 0 ≤ get_auxiliary_data_value s 3 j) →
      (∀ k, k + 1 < K →
        get_auxiliary_data_value s 3 k < get_auxiliary_data_value s 3 (k + 1)) →
      (∀ i, i ∈ idxs → i < (get_auxiliary_data_array s 0).length) →
      ∀ i, i ∈ idxs →
        0 < get_auxiliary_data_value (update_latent_go y K idxs s rng).1 0 i := by
  induction idxs with
  | nil => intro s rng _ _ _ _ i hi; cases hi
  | cons i0 rest ih =>
      intro s rng hs hc0 hcm hb i hi
      have hz : 0 < truncated_exp_draw (rngUnit rng)
          (get_auxiliary_data_value s 1 i0)
          (get_auxiliary_data_value s 3 (y.getD i0 0))
          (get_auxiliary_data_value s 3 (y.getD i0 0 + 1))
          (decide (y.getD i0 0 + 1 < K)) := by
        apply truncated_exp_draw_pos
        · exact rngUnit_pos rng
        · exact hc0 _
        · intro hdec
          exact hcm _ (of_decide_eq_true hdec)
      have hs2len : (set_auxiliary_data_value s 0 ((i0 : Nat) : Int)
          (truncated_exp_draw (rngUnit rng)
            (get_auxiliary_data_value s 1 i0)
            (get_auxiliary_data_value s 3 (y.getD i0 0))
            (get_auxiliary_data_value s 3 (y.getD i0 0 + 1))
            (decide (y.getD i0 0 + 1 < K)))).length = s.length :=
        aux_length_set _ _ _ _
      have harr3 : ∀ v : ℚ, get_auxiliary_data_array
          (set_auxiliary_data_value s 0 ((i0 : Nat) : Int) v) 3 =
          get_auxiliary_data_array s 3 := by
        intro v
        exact get_array_set_ne _ _ _ _ _ (by omega)
      have harr0len : ∀ v : ℚ, (get_auxiliary_data_array
          (set_auxiliary_data_value s 0 ((i0 : Nat) : Int) v) 0).length =
          (get_auxiliary_data_array s 0).length := by
        intro v
        rw [get_array_set_eq _ _ _ _ hs, slotWrite_length]
      rcases List.mem_cons.mp hi with rfl | hmem
      · by_cases hr : i ∈ rest
        · show 0 < get_auxiliary_data_value (update_latent_go y K rest _ _).1 0 i
          apply ih
          · rw [hs2len]; exact hs
          · intro j
            unfold get_auxiliary_data_value
            rw [harr3]
            exact hc0 j
          · intro k hk
            unfold get_auxiliary_data_value
            rw [harr3]
            exact hcm k hk
          · intro i2 hi2
            rw [harr0len]
            exact hb i2 (List.mem_cons_of_mem _ hi2)
          · exact hr
        · show 0 < get_auxiliary_data_value (update_latent_go y K rest _ _).1 0 i
          rw [update_latent_go_untouched _ _ _ _ _ _ hr]
          rw [get_value_set_self _ _ _ _ hs (hb i (List.mem_cons_self i rest))]
          exact hz
      · show 0 < get_auxiliary_data_value (update_latent_go y K rest _ _).1 0 i
        apply ih
        · rw [hs2len]; exact hs
        · intro j
          unfold get_auxiliary_data_value
          rw [harr3]
          exact hc0 j
        · intro k hk
          unfold get_auxiliary_data_value
          rw [harr3]
          exact hcm k hk
        · intro i2 hi2
          rw [harr0len]
          exact hb i2 (List.mem_cons_of_mem _ hi2)
        · exact hmem

theorem gamma_params_store_length (s : AuxStore) (a b g : ℚ) (rng : Nat) :
    (update_gamma_params s a b g rng).1.length = s.length := by
  unfold update_gamma_params
  rw [update_gamma_go_store_length]

theorem gamma_params_other (s : AuxStore) (a b g : ℚ) (rng : Nat) (d : Nat)
    (hd : d ≠ 2) :
    get_auxiliary_data_array (update_gamma_params s a b g rng).1 d =
      get_auxiliary_data_array s d := by
  unfold update_gamma_params
  rw [update_gamma_go_other _ _ _ _ _ _ _ hd]

theorem gamma_params_dim2_length (s : AuxStore) (a b g : ℚ) (rng : Nat) :
    (get_auxiliary_data_array (update_gamma_params s a b g rng).1 2).length =
      (get_auxiliary_data_array s 2).length := by
  unfold update_gamma_params
  rw [update_gamma_go_dim2_length]

theorem auxWF_write1 (vd : ValidData) (s : AuxStore) (vals : List ℚ)
    (h : AuxWF vd s) :
    AuxWF vd (write_dim_loop s 1 vals 0) := by
  refine ⟨?_, ?_, ?_, ?_, ?_⟩
  · rw [write_dim_loop_length]
    exact h.store_len
  · rw [write_dim_loop_other _ _ _ 0 _ (by omega)]
    exact h.len0
  · rw [write_dim_loop_self, overwriteFrom_length]
    exact h.len1
  · rw [write_dim_loop_other _ _ _ 2 _ (by omega)]
    exact h.len2
  · rw [write_dim_loop_other _ _ _ 3 _ (by omega),
      write_dim_loop_other _ _ _ 2 _ (by omega)]
    exact h.dim3

theorem auxWF_latent (vd : ValidData) (y : List Nat) (s : AuxStore) (rng : Nat)
    (h : AuxWF vd s) :
    AuxWF vd (update_latent_variables y vd.numLevels vd.nTrain s rng).1 := by
  unfold update_latent_variables
  refine ⟨?_, ?_, ?_, ?_, ?_⟩
  · rw [update_latent_go_store_length]
    exact h.store_len
  · rw [update_latent_go_dim0_length]
    exact h.len0
  · rw [update_latent_go_other _ _ _ _ _ 1 (by omega)]
    exact h.len1
  · rw [update_latent_go_other _ _ _ _ _ 2 (by omega)]
    exact h.len2
  · rw [update_latent_go_other _ _ _ _ _ 3 (by omega),
      update_latent_go_other _ _ _ _ _ 2 (by omega)]
    exact h.dim3

theorem auxWF_after_gamma_cum (vd : ValidData) (s : AuxStore) (a b g : ℚ)
    (rng : Nat) (h : AuxWF vd s) :
    AuxWF vd (update_cumulative_exp_sums (update_gamma_params s a b g rng).1) := by
  have hg_len : (update_gamma_params s a b g rng).1.length = 4 := by
    rw [gamma_params_store_length]
    exact h.store_len
  have hg0 := gamma_params_other s a b g rng 0 (by omega)
  have hg1 := gamma_params_other s a b g rng 1 (by omega)
  have hg3 := gamma_params_other s a b g rng 3 (by omega)
  refine ⟨?_, ?_, ?_, ?_, ?_⟩
  · rw [update_cum_length, hg_len]
  · rw [update_cum_other _ _ (by omega), hg0]
    exact h.len0
  · rw [update_cum_other _ _ (by omega), hg1]
    exact h.len1
  · rw [update_cum_other _ _ (by omega), gamma_params_dim2_length]
    exact h.len2
  · rw [update_cum_dim3 _ (by rw [hg_len]; omega),
      update_cum_other _ _ (by omega)]
    congr 1
    rw [hg3, h.dim3, cumulativeExpSums_length]

theorem run_iter_auxWF (vd : ValidData) (cfg : SamplerConfig) (kidx : List Nat)
    (st : LoopState) (i : Nat) (h : AuxWF vd st.aux) :
    AuxWF vd (run_iter vd cfg kidx st i).aux := by
  rw [run_iter_aux_proj]
  apply auxWF_after_gamma_cum
  apply auxWF_latent
  exact auxWF_write1 vd st.aux _ h

theorem mem_pos_of_getD_pos (l : List ℚ)
    (hpos : ∀ i, i < l.length → 0 < l.getD i 0) : ∀ q ∈ l, 0 < q := by
  intro q hq
  rcases List.mem_iff_getElem.mp hq with ⟨idx, hlt, rfl⟩
  have h2 := hpos idx hlt
  rw [List.getD_eq_getElem?_getD, List.getElem?_eq_getElem hlt] at h2
  simpa using h2

theorem run_iter_latent_pos (vd : ValidData) (cfg : SamplerConfig) (kidx : List Nat)
    (st : LoopState) (i : Nat) (h : AuxWF vd st.aux) :
    ∀ j, j < vd.nTrain →
      0 < get_auxiliary_data_value (run_iter vd cfg kidx st i).aux 0 j := by
  intro j hj
  rw [run_iter_aux_proj]
  have h1 : AuxWF vd (write_dim_loop st.aux 1 (iter_preds vd cfg st i) 0) :=
    auxWF_write1 vd st.aux _ h
  have hcum := auxWF_cum_facts vd _ h1
  unfold get_auxiliary_data_value
  rw [update_cum_other _ _ (by omega), gamma_params_other _ _ _ _ _ 0 (by omega)]
  have hpos := update_latent_go_pos (vd.yVals.map Int.toNat) vd.numLevels
    (List.range vd.nTrain)
    (write_dim_loop st.aux 1 (iter_preds vd cfg st i) 0)
    (forest_sampler_step st.active_forest st.rng (iter_flag cfg i)).2
    (by rw [h1.store_len]; omega)
    hcum.1 hcum.2
    (fun i2 hi2 => by rw [h1.len0]; exact List.mem_range.mp hi2)
    j (List.mem_range.mpr hj)
  unfold update_latent_variables
  unfold get_auxiliary_data_value at hpos
  exact hpos

theorem chain_state_succ (vd : ValidData) (cfg : SamplerConfig) (t : Nat) :
    chain_state vd cfg (t + 1) =
      run_iter vd cfg (keep_indices cfg) (chain_state vd cfg t) t := by
  unfold chain_state loop_iters
  rw [List.range_succ, List.foldl_append]
  rfl

theorem chain_state_auxWF (vd : ValidData) (cfg : SamplerConfig) :
    ∀ t, AuxWF vd (chain_state vd cfg t).aux := by
  intro t
  induction t with
  | zero => exact init_aux_store_auxWF vd
  | succ t ih =>
      rw [chain_state_succ]
      exact run_iter_auxWF _ _ _ _ _ ih

/-- All filled latent columns hold strictly positive entries. -/
def latent_cols_pos (c : List (Option (List ℚ))) : Prop :=
  ∀ j col, c.getD j none = some col → ∀ q ∈ col, 0 < q

theorem run_iter_latent_cols (vd : ValidData) (cfg : SamplerConfig) (kidx : List Nat)
    (st : LoopState) (i : Nat) (h : AuxWF vd st.aux)
    (hc : latent_cols_pos st.latent_samples) :
    latent_cols_pos (run_iter vd cfg kidx st i).latent_samples := by
  intro j col hcol q hq
  rw [run_iter_latent_proj] at hcol
  cases hk : iter_keep kidx i
  · rw [hk] at hcol
    simp only [Bool.false_eq_true, if_false] at hcol
    exact hc j col hcol q hq
  · rw [hk] at hcol
    simp only [if_true] at hcol
    rcases getD_set_cases st.latent_samples (iter_counter kidx st i).toNat j
      (some (get_auxiliary_data_array (run_iter vd cfg kidx st i).aux 0)) none with
      hcase | hcase
    · rw [hcase] at hcol
      cases hcol
      refine mem_pos_of_getD_pos _ ?_ q hq
      intro idx hlt
      have hWF := run_iter_auxWF vd cfg kidx st i h
      rw [hWF.len0] at hlt
      exact run_iter_latent_pos vd cfg kidx st i h idx hlt
    · rw [hcase] at hcol
      exact hc j col hcol q hq

theorem chain_state_latent_cols (vd : ValidData) (cfg : SamplerConfig) :
    ∀ t, latent_cols_pos (chain_state vd cfg t).latent_samples := by
  intro t
  induction t with
  | zero =>
      intro j col hcol q hq
      have hinit : (chain_state vd cfg 0).latent_samples =
          List.replicate (keep_indices cfg).length none := rfl
      rw [hinit, getD_replicate_none] at hcol
      cases hcol
  | succ t ih =>
      rw [chain_state_succ]
      exact run_iter_latent_cols _ _ _ _ _ (chain_state_auxWF vd cfg t) ih

/-- C7: the latent positivity invariant.  After every iteration of the
chain every latent slot holds a strictly positive value, and every entry
of every stored latent-sample column of a completed sample call is
strictly positive. -/
theorem claim_C7_latent_positive (X : NpMatrix) (y : NpVector) (Xt : Option NpMatrix)
    (cfg : SamplerConfig) (vd : ValidData)
    (hv : validateInputs X y Xt = Except.ok vd) :
    (∀ t j, j < vd.nTrain →
      0 < get_auxiliary_data_value (chain_state vd cfg (t + 1)).aux 0 j) ∧
    (∀ out, CloglogOrdinalBARTModel.sample X y Xt cfg = Except.ok out →
      ∀ j col, out.latent_samples.getD j none = some col → ∀ q ∈ col, 0 < q) := by
  constructor
  · intro t j hj
    rw [chain_state_succ]
    exact run_iter_latent_pos vd cfg (keep_indices cfg) (chain_state vd cfg t) t
      (chain_state_auxWF vd cfg t) j hj
  · intro out hout j col hcol q hq
    rcases sample_ok_inversion X y Xt cfg out hout with ⟨vd2, hv2, rfl⟩
    rw [hv] at hv2
    cases hv2
    exact chain_state_latent_cols vd cfg _ j col hcol q hq

theorem check_y_dtype_ok_iff (y : NpVector) :
    check_y_dtype y = Except.ok () ↔
      (y.dtype = NpDtype.int32 ∨ y.dtype = NpDtype.int64) := by
  unfold check_y_dtype
  by_cases hD : y.dtype = NpDtype.int32 ∨ y.dtype = NpDtype.int64 <;> simp [hD]

theorem check_y_nonneg_ok_iff (y : NpVector) :
    check_y_nonneg y = Except.ok () ↔ ¬ ∃ v ∈ y.vals, v < 0 := by
  unfold check_y_nonneg
  by_cases hN : ∃ v ∈ y.vals, v < 0 <;> simp [hN]

theorem check_test_cols_ok_iff (X : NpMatrix) (Xt : Option NpMatrix) :
    check_test_cols X Xt = Except.ok () ↔
      ∀ Xtm, Xt = some Xtm → Xtm.cols = X.cols := by
  cases Xt with
  | none => simp [check_test_cols]
  | some Xtm =>
      unfold check_test_cols
      by_cases hc : Xtm.cols = X.cols <;> simp [hc]

theorem check_train_rows_ok_iff (X : NpMatrix) (y : NpVector) :
    check_train_rows X y = Except.ok () ↔ y.vals.length = X.rows := by
  unfold check_train_rows
  by_cases hr : y.vals.length = X.rows <;> simp [hr]

theorem validateInputs_ok_inversion (X : NpMatrix) (y : NpVector)
    (Xt : Option NpMatrix) (vd : ValidData)
    (hv : validateInputs X y Xt = Except.ok vd) :
    (y.dtype = NpDtype.int32 ∨ y.dtype = NpDtype.int64) ∧
    (¬ ∃ v ∈ y.vals, v < 0) ∧
    (∀ Xtm, Xt = some Xtm → Xtm.cols = X.cols) ∧
    y.vals.length = X.rows ∧
    (∃ m, np_max_int y.vals = Except.ok m ∧ ¬ (m + 1 < 2) ∧
      vd.numLevels = (m + 1).toNat ∧ vd.yVals = y.vals ∧
      vd.nTrain = y.vals.length) := by
  unfold validateInputs at hv
  cases hd : check_y_dtype y with
  | error e => rw [hd] at hv; simp at hv
  | ok u =>
  rw [hd] at hv
  cases hn : check_y_nonneg y with
  | error e => rw [hn] at hv; simp at hv
  | ok u2 =>
  rw [hn] at hv
  cases hc : check_test_cols X Xt with
  | error e => rw [hc] at hv; simp at hv
  | ok u3 =>
  rw [hc] at hv
  cases hr : check_train_rows X y with
  | error e => rw [hr] at hv; simp at hv
  | ok u4 =>
  rw [hr] at hv
  cases hm : np_max_int y.vals with
  | error e => rw [hm] at hv; simp at hv
  | ok m =>
  rw [hm] at hv
  dsimp only at hv
  by_cases hlt : m + 1 < 2
  · rw [if_pos hlt] at hv
    simp at hv
  · rw [if_neg hlt] at hv
    have hvd := Except.ok.inj hv
    subst hvd
    cases u
    cases u2
    cases u3
    cases u4
    exact ⟨(check_y_dtype_ok_iff y).mp hd, (check_y_nonneg_ok_iff y).mp hn,
      (check_test_cols_ok_iff X Xt).mp hc, (check_train_rows_ok_iff X y).mp hr,
      ⟨m, rfl, hlt, rfl, rfl, rfl⟩⟩

theorem foldl_max_init_le (rest : List Int) :
    ∀ (a : Int), a ≤ rest.foldl max a := by
  induction rest with
  | nil => intro a; exact le_refl a
  | cons x r ih =>
      intro a
      have h1 : a ≤ max a x := le_max_left a x
      exact le_trans h1 (ih (max a x))

theorem foldl_max_mem_le (rest : List Int) :
    ∀ (a v : Int), v ∈ rest → v ≤ rest.foldl max a := by
  induction rest with
  | nil => intro a v hv; cases hv
  | cons x r ih =>
      intro a v hv
      rcases List.mem_cons.mp hv with rfl | hv2
      · exact le_trans (le_max_right a v) (foldl_max_init_le r (max a v))
      · exact ih (max a x) v hv2

theorem foldl_max_mem (rest : List Int) :
    ∀ (a : Int), rest.foldl max a ∈ a :: rest := by
  induction rest with
  | nil => intro a; exact List.mem_singleton.mpr rfl
  | cons x r ih =>
      intro a
      show r.foldl max (max a x) ∈ a :: x :: r
      have h1 := ih (max a x)
      rcases List.mem_cons.mp h1 with heq | hmem
      · rcases max_choice a x with hm | hm
        · rw [heq, hm]
          exact List.mem_cons_self _ _
        · rw [heq, hm]
          exact List.mem_cons_of_mem _ (List.mem_cons_self _ _)
      · exact List.mem_cons_of_mem _ (List.mem_cons_of_mem _ hmem)

theorem foldl_max_zero (rest : List Int) :
    ∀ (a : Int), a = 0 → (∀ v ∈ rest, v = 0) → rest.foldl max a = 0 := by
  induction rest with
  | nil => intro a ha _; exact ha
  | cons x r ih =>
      intro a ha hall
      show r.foldl max (max a x) = 0
      refine ih (max a x) ?_ ?_
      · rw [ha, hall x (List.mem_cons_self _ _)]
        simp
      · intro v hv
        exact hall v (List.mem_cons_of_mem _ hv)

theorem np_max_all_zero (vals : List Int) (hne : vals ≠ [])
    (hz : ∀ v ∈ vals, v = 0) : np_max_int vals = Except.ok 0 := by
  cases vals with
  | nil => exact absurd rfl hne
  | cons v rest =>
      show Except.ok (rest.foldl max v) = Except.ok 0
      rw [foldl_max_zero rest v (hz v (List.mem_cons_self _ _))
        (fun w hw => hz w (List.mem_cons_of_mem _ hw))]

/-- C6: sample reports each input-validation failure as a ValueError before
any sampling iteration runs: non-integer y_train dtype, negative outcome
values, mismatched test/train column counts, mismatched X/y row counts,
and a fewer-than-two-categories outcome (in its computed-K sense: every
outcome equal to 0); and every error a sample call reports comes from the
validation phase, which precedes the loop, so a failing call performs no
sampling iteration and creates no sampling state. -/
theorem claim_C6_validation_errors (X : NpMatrix) (y : NpVector)
    (Xt : Option NpMatrix) (cfg : SamplerConfig) :
    (¬ (y.dtype = NpDtype.int32 ∨ y.dtype = NpDtype.int64) →
      CloglogOrdinalBARTModel.sample X y Xt cfg =
        Except.error (PyError.valueError msg_y_integer)) ∧
    ((y.dtype = NpDtype.int32 ∨ y.dtype = NpDtype.int64) →
      (∃ v ∈ y.vals, v < 0) →
      CloglogOrdinalBARTModel.sample X y Xt cfg =
        Except.error (PyError.valueError msg_y_nonneg)) ∧
    ((y.dtype = NpDtype.int32 ∨ y.dtype = NpDtype.int64) →
      (¬ ∃ v ∈ y.vals, v < 0) →
      ∀ Xtm, Xt = some Xtm → Xtm.cols ≠ X.cols →
      CloglogOrdinalBARTModel.sample X y Xt cfg =
        Except.error (PyError.valueError msg_cols)) ∧
    ((y.dtype = NpDtype.int32 ∨ y.dtype = NpDtype.int64) →
      (¬ ∃ v ∈ y.vals, v < 0) →
      (∀ Xtm, Xt = some Xtm → Xtm.cols = X.cols) →
      y.vals.length ≠ X.rows →
      CloglogOrdinalBARTModel.sample X y Xt cfg =
        Except.error (PyError.valueError msg_rows)) ∧
    ((y.dtype = NpDtype.int32 ∨ y.dtype = NpDtype.int64) →
      (¬ ∃ v ∈ y.vals, v < 0) →
      (∀ Xtm, Xt = some Xtm → Xtm.cols = X.cols) →
      y.vals.length = X.rows →
      y.vals ≠ [] → (∀ v ∈ y.vals, v = 0) →
      CloglogOrdinalBARTModel.sample X y Xt cfg =
        Except.error (PyError.valueError msg_levels)) ∧
    (∀ e, CloglogOrdinalBARTModel.sample X y Xt cfg = Except.error e ↔
      validateInputs X y Xt = Except.error e) := by
  have hsample : ∀ e, validateInputs X y Xt = Except.error e →
      CloglogOrdinalBARTModel.sample X y Xt cfg = Except.error e := by
    intro e he
    unfold CloglogOrdinalBARTModel.sample
    rw [he]
  refine ⟨?_, ?_, ?_, ?_, ?_, ?_⟩
  · intro hD
    apply hsample
    unfold validateInputs check_y_dtype
    rw [if_neg hD]
  · intro hD hNeg
    apply hsample
    unfold validateInputs
    rw [show check_y_dtype y = Except.ok () from by
      unfold check_y_dtype; rw [if_pos hD]]
    rw [show check_y_nonneg y = Except.error (PyError.valueError msg_y_nonneg) from by
      unfold check_y_nonneg; rw [if_pos hNeg]]
  · intro hD hN Xtm hXt hcols
    apply hsample
    unfold validateInputs
    rw [show check_y_dtype y = Except.ok () from by
      unfold check_y_dtype; rw [if_pos hD]]
    rw [show check_y_nonneg y = Except.ok () from by
      unfold check_y_nonneg; rw [if_neg hN]]
    rw [show check_test_cols X Xt = Except.error (PyError.valueError msg_cols) from by
      rw [hXt]; simp only [check_test_cols]; rw [if_pos hcols]]
  · intro hD hN hC hrows
    apply hsample
    unfold validateInputs
    rw [show check_y_dtype y = Except.ok () from by
      unfold check_y_dtype; rw [if_pos hD]]
    rw [show check_y_nonneg y = Except.ok () from by
      unfold check_y_nonneg; rw [if_neg hN]]
    rw [show check_test_cols X Xt = Except.ok () from
      (check_test_cols_ok_iff X Xt).mpr hC]
    rw [show check_train_rows X y = Except.error (PyError.valueError msg_rows) from by
      unfold check_train_rows; rw [if_pos hrows]]
  · intro hD hN hC hrows hne hz
    apply hsample
    unfold validateInputs
    rw [show check_y_dtype y = Except.ok () from by
      unfold check_y_dtype; rw [if_pos hD]]
    rw [show check_y_nonneg y = Except.ok () from by
      unfold check_y_nonneg; rw [if_neg hN]]
    rw [show check_test_cols X Xt = Except.ok () from
      (check_test_cols_ok_iff X Xt).mpr hC]
    rw [show check_train_rows X y = Except.ok () from
      (check_train_rows_ok_iff X y).mpr hrows]
    rw [np_max_all_zero y.vals hne hz]
    dsimp only
    rw [if_pos (by omega)]
  · intro e
    unfold CloglogOrdinalBARTModel.sample
    cases hval : validateInputs X y Xt with
    | error e2 => simp
    | ok vd => simp

/-- C10: the number of outcome categories K is computed from the data as
max(y_train) + 1, never configured: under any inputs accepted by
validation, numLevels is the data maximum plus one, every outcome value
lies in [0, K - 1], K is at least 2 and the outcomes are not all zero;
outcomes {0, 2} yield numLevels 3 although category 1 has no observations;
and the fewer-than-two-categories error fires exactly on an all-zero
outcome vector that passes the earlier checks. -/
theorem claim_C10_levels_from_data (X : NpMatrix) (y : NpVector)
    (Xt : Option NpMatrix) (vd : ValidData)
    (hv : validateInputs X y Xt = Except.ok vd) :
    (∃ m, np_max_int y.vals = Except.ok m ∧ (vd.numLevels : Int) = m + 1 ∧
      m ∈ y.vals ∧ ∀ v ∈ y.vals, v ≤ m) ∧
    (∀ v ∈ y.vals, 0 ≤ v ∧ v ≤ (vd.numLevels : Int) - 1) ∧
    2 ≤ vd.numLevels ∧
    ¬ (∀ v ∈ y.vals, v = 0) ∧
    (validateInputs { data := [[0], [0]], cols := 1 }
        { dtype := NpDtype.int64, vals := [0, 2] } none =
      Except.ok { nTrain := 2, nTest := 0, hasTest := false,
                  numLevels := 3, yVals := [0, 2] }) ∧
    (∀ (X2 : NpMatrix) (y2 : NpVector), y2.dtype = NpDtype.int64 →
      y2.vals ≠ [] → (∀ v ∈ y2.vals, v = 0) → X2.rows = y2.vals.length →
      validateInputs X2 y2 none =
        Except.error (PyError.valueError msg_levels)) := by
  obtain ⟨hD, hN, hC, hrows, m, hm, hlt, hKlev, hyv, hntr⟩ :=
    validateInputs_ok_inversion X y Xt vd hv
  have hnonneg : ∀ v ∈ y.vals, 0 ≤ v := by
    intro v hvmem
    by_contra hcon
    exact hN ⟨v, hvmem, by omega⟩
  have hmem : m ∈ y.vals ∧ ∀ v ∈ y.vals, v ≤ m := by
    cases hy : y.vals with
    | nil => rw [hy] at hm; simp [np_max_int] at hm
    | cons v0 rest =>
        rw [hy] at hm
        have hm2 : m = rest.foldl max v0 := by
          have : Except.ok (rest.foldl max v0) = Except.ok m := hm
          cases this
          rfl
        subst hm2
        constructor
        · exact foldl_max_mem rest v0
        · intro v hvm
          rcases List.mem_cons.mp hvm with rfl | hvr
          · exact foldl_max_init_le rest v
          · exact foldl_max_mem_le rest v0 v hvr
  have hm0 : 0 ≤ m := hnonneg m hmem.1
  have hK : ((((m + 1).toNat : Nat)) : Int) = m + 1 := by omega
  refine ⟨⟨m, hm, ?_, hmem.1, hmem.2⟩, ?_, ?_, ?_, ?_, ?_⟩
  · rw [hKlev]
    exact hK
  · intro v hvmem
    refine ⟨hnonneg v hvmem, ?_⟩
    have h2 := hmem.2 v hvmem
    rw [hKlev]
    omega
  · rw [hKlev]
    omega
  · intro hall
    have h1 := hall m hmem.1
    omega
  · rfl
  · intro X2 y2 hdt hne hz hrows2
    unfold validateInputs
    rw [show check_y_dtype y2 = Except.ok () from by
      unfold check_y_dtype; rw [if_pos (Or.inr hdt)]]
    rw [show check_y_nonneg y2 = Except.ok () from by
      unfold check_y_nonneg
      rw [if_neg]
      intro hcon
      rcases hcon with ⟨v, hvm, hvlt⟩
      rw [hz v hvm] at hvlt
      exact absurd hvlt (by omega)]
    rw [show check_test_cols X2 none = Except.ok () from rfl]
    rw [show check_train_rows X2 y2 = Except.ok () from
      (check_train_rows_ok_iff X2 y2).mpr hrows2.symm]
    rw [np_max_all_zero y2.vals hne hz]
    dsimp only
    rw [if_pos (by omega)]

/-- C9: calling predict on a model instance on which sample has not
completed raises NotSampledError, an error kind distinct from the
ValueError used for input-validation failures; a fresh model starts
unsampled and only a completed sample call flips the flag. -/
theorem claim_C9_not_sampled (m : ModelState) (X : NpMatrix)
    (h : m.sampled = false) :
    CloglogOrdinalBARTModel.predict m X =
      Except.error (PyError.notSampledError not_fitted_msg) ∧
    (∀ msg msg2, PyError.notSampledError msg ≠ PyError.valueError msg2) ∧
    CloglogOrdinalBARTModel.new_model.sampled = false ∧
    (∀ out, (model_after_sample out).sampled = true) := by
  refine ⟨?_, ?_, rfl, fun out => rfl⟩
  · unfold CloglogOrdinalBARTModel.predict CloglogOrdinalBARTModel.is_sampled
    rw [h]
    rw [if_pos rfl]
  · intro msg msg2 hcon
    exact PyError.noConfusion hcon

/-- Concrete covariate matrix for the C9 witness. -/
def c9_X : NpMatrix := { data := [[0]], cols := 1 }

theorem claim_C9_witness :
    CloglogOrdinalBARTModel.predict CloglogOrdinalBARTModel.new_model c9_X =
      Except.error (PyError.notSampledError not_fitted_msg) ∧
    (∀ msg msg2, PyError.notSampledError msg ≠ PyError.valueError msg2) ∧
    CloglogOrdinalBARTModel.new_model.sampled = false ∧
    (∀ out, (model_after_sample out).sampled = true) :=
  claim_C9_not_sampled CloglogOrdinalBARTModel.new_model c9_X rfl

/-- C8: with identical inputs, configuration and seed, two sample runs
return identical retained arrays (gamma, train predictions, test
predictions when present, and latents); the embedded sampler threads all
randomness through the seeded RNG stream, so the result is a function of
the inputs. -/
theorem claim_C8_deterministic (X : NpMatrix) (y : NpVector) (Xt : Option NpMatrix)
    (cfg : SamplerConfig) (out1 out2 : SampleOutput)
    (h1 : CloglogOrdinalBARTModel.sample X y Xt cfg = Except.ok out1)
    (h2 : CloglogOrdinalBARTModel.sample X y Xt cfg = Except.ok out2) :
    out1.gamma_samples = out2.gamma_samples ∧
    out1.forest_pred_train = out2.forest_pred_train ∧
    out1.forest_pred_test = out2.forest_pred_test ∧
    out1.latent_samples = out2.latent_samples := by
  have h3 : Except.ok (ε := PyError) out1 = Except.ok out2 := h1.symm.trans h2
  have h4 := Except.ok.inj h3
  rw [h4]
  exact ⟨rfl, rfl, rfl, rfl⟩

/-- C1 (amended): when validation passes and num_mcmc = 0, sample raises
no error at all: keep_idx is empty, the loop still runs num_gfr +
num_burnin iterations each invoking the ensemble sampler once, and zero
draws are retained. -/
theorem claim_C1_no_mcmc_runs (X : NpMatrix) (y : NpVector) (Xt : Option NpMatrix)
    (cfg : SamplerConfig) (vd : ValidData)
    (hv : validateInputs X y Xt = Except.ok vd) (hm : cfg.numMcmc = 0) :
    sample_is_ok (CloglogOrdinalBARTModel.sample X y Xt cfg) = true ∧
    sample_ensemble_count (CloglogOrdinalBARTModel.sample X y Xt cfg) =
      cfg.numGfr + cfg.numBurnin ∧
    keep_indices cfg = [] ∧
    sample_store_count (CloglogOrdinalBARTModel.sample X y Xt cfg) = 0 := by
  have hkeep : keep_indices cfg = [] := by
    unfold keep_indices
    rw [hm, Nat.add_zero]
    exact npArange_empty_of_eq _ _
  have hok : CloglogOrdinalBARTModel.sample X y Xt cfg =
      Except.ok
        { keep_idx := keep_indices cfg,
          n_keep := (keep_indices cfg).length,
          forest_pred_train := (chain_state vd cfg
            (cfg.numGfr + cfg.numBurnin + cfg.numMcmc)).forest_pred_train,
          forest_pred_test := (chain_state vd cfg
            (cfg.numGfr + cfg.numBurnin + cfg.numMcmc)).forest_pred_test,
          gamma_samples := (chain_state vd cfg
            (cfg.numGfr + cfg.numBurnin + cfg.numMcmc)).gamma_samples,
          latent_samples := (chain_state vd cfg
            (cfg.numGfr + cfg.numBurnin + cfg.numMcmc)).latent_samples,
          trace := (chain_state vd cfg
            (cfg.numGfr + cfg.numBurnin + cfg.numMcmc)).trace,
          final_aux := (chain_state vd cfg
            (cfg.numGfr + cfg.numBurnin + cfg.numMcmc)).aux,
          forest_samples := (chain_state vd cfg
            (cfg.numGfr + cfg.numBurnin + cfg.numMcmc)).forest_samples } := by
    unfold CloglogOrdinalBARTModel.sample
    rw [hv]
  refine ⟨?_, ?_, hkeep, ?_⟩
  · rw [hok]
    rfl
  · rw [hok]
    show (ensemble_events (chain_state vd cfg
      (cfg.numGfr + cfg.numBurnin + cfg.numMcmc)).trace).length = _
    unfold chain_state
    rw [loop_ensemble_events]
    have hinit : ensemble_events (initial_state vd cfg).trace = [] := rfl
    rw [hinit, List.nil_append, List.length_map, List.length_range, hm]
    omega
  · rw [hok]
    show (store_events (chain_state vd cfg
      (cfg.numGfr + cfg.numBurnin + cfg.numMcmc)).trace).length = 0
    have hloop := loop_retention vd cfg (keep_indices cfg)
      (List.range (cfg.numGfr + cfg.numBurnin + cfg.numMcmc))
      (initial_state vd cfg) (keep_indices cfg).length 0
      (initial_retentionWF vd cfg)
      (by rw [range_filter_keep]; simp)
    rw [range_filter_keep] at hloop
    unfold chain_state
    rw [hloop.2]
    have hinit : store_events (initial_state vd cfg).trace = [] := rfl
    rw [hinit, List.nil_append, List.enumFrom_length, hkeep]
    rfl

/-- Concrete covariates for the C1 counterexample and witness. -/
def c1_X : NpMatrix := { data := [[0], [1]], cols := 1 }

/-- Concrete outcomes for the C1 counterexample and witness. -/
def c1_y : NpVector := { dtype := NpDtype.int64, vals := [0, 1] }

/-- Configuration with num_mcmc = 0 and two burn-in iterations. -/
def c1_cfg : SamplerConfig :=
  { nTrees := 1, numGfr := 0, numBurnin := 2, numMcmc := 0, nThin := 1,
    alphaGamma := 2, betaGamma := 2, seed := 7, numThreads := 1 }

/-- C1 counterexample: with num_mcmc = 0 on otherwise valid inputs the
call completes without raising any error and invokes the forest sampler
twice (once per burn-in iteration), refuting the claim that a
configuration error is raised before any tree proposal is attempted. -/
theorem claim_C1_counterexample :
    sample_is_ok (CloglogOrdinalBARTModel.sample c1_X c1_y none c1_cfg) = true ∧
    sample_ensemble_count (CloglogOrdinalBARTModel.sample c1_X c1_y none c1_cfg) = 2 := by
  constructor
  · rfl
  · rfl

theorem claim_C1_witness :
    sample_is_ok (CloglogOrdinalBARTModel.sample c1_X c1_y none c1_cfg) = true ∧
    sample_ensemble_count (CloglogOrdinalBARTModel.sample c1_X c1_y none c1_cfg) =
      c1_cfg.numGfr + c1_cfg.numBurnin ∧
    keep_indices c1_cfg = [] ∧
    sample_store_count (CloglogOrdinalBARTModel.sample c1_X c1_y none c1_cfg) = 0 :=
  claim_C1_no_mcmc_runs c1_X c1_y none c1_cfg
    { nTrain := 2, nTest := 0, hasTest := false, numLevels := 2, yVals := [0, 1] }
    (by rfl) rfl

/-- Fallback output used only to make concrete-output extraction total. -/
def empty_output : SampleOutput :=
  { keep_idx := [], n_keep := 0, forest_pred_train := [], forest_pred_test := none,
    gamma_samples := [], latent_samples := [], trace := [], final_aux := [],
    forest_samples := [] }

/-- Concrete covariates for the C4 witness. -/
def c4_X : NpMatrix := { data := [[0], [1]], cols := 1 }

/-- Concrete outcomes for the C4 witness. -/
def c4_y : NpVector := { dtype := NpDtype.int64, vals := [0, 1] }

/-- Concrete configuration for the C4 witness: one warm-start, one burn-in
and one retained iteration. -/
def c4_cfg : SamplerConfig :=
  { nTrees := 1, numGfr := 1, numBurnin := 1, numMcmc := 1, nThin := 1,
    alphaGamma := 2, betaGamma := 2, seed := 5, numThreads := 1 }

/-- The output of the concrete C4 run. -/
def c4_out : SampleOutput :=
  match CloglogOrdinalBARTModel.sample c4_X c4_y none c4_cfg with
  | Except.ok o => o
  | Except.error _ => empty_output

theorem claim_C4_witness :
    ensemble_events c4_out.trace =
      (List.range (c4_cfg.numGfr + c4_cfg.numBurnin + c4_cfg.numMcmc)).map
        (fun i => ((if i < c4_cfg.numGfr then PhaseMode.warmstart else PhaseMode.mh),
          decide (i ∈ c4_out.keep_idx))) :=
  claim_C4_phase_schedule c4_X c4_y none c4_cfg c4_out (by rfl)

/-- Concrete covariates for the C5 witness. -/
def c5_X : NpMatrix := { data := [[0], [1]], cols := 1 }

/-- Concrete outcomes for the C5 witness. -/
def c5_y : NpVector := { dtype := NpDtype.int64, vals := [1, 0] }

/-- Concrete held-out covariates for the C5 witness. -/
def c5_Xtest : NpMatrix := { data := [[2]], cols := 1 }

/-- Concrete configuration for the C5 witness: two retained iterations. -/
def c5_cfg : SamplerConfig :=
  { nTrees := 1, numGfr := 0, numBurnin := 1, numMcmc := 2, nThin := 1,
    alphaGamma := 2, betaGamma := 2, seed := 9, numThreads := 1 }

/-- The output of the concrete C5 run. -/
def c5_out : SampleOutput :=
  match CloglogOrdinalBARTModel.sample c5_X c5_y (some c5_Xtest) c5_cfg with
  | Except.ok o => o
  | Except.error _ => empty_output

theorem claim_C5_witness :
    c5_out.keep_idx = npArange (c5_cfg.numGfr + c5_cfg.numBurnin)
        (c5_cfg.numGfr + c5_cfg.numBurnin + c5_cfg.numMcmc) c5_cfg.nThin ∧
    c5_out.n_keep = c5_out.keep_idx.length ∧
    store_events c5_out.trace = List.enumFrom 0 c5_out.keep_idx ∧
    (store_events c5_out.trace).length = c5_out.keep_idx.length ∧
    (∀ j, j < c5_out.n_keep →
      (c5_out.forest_pred_train.getD j none).isSome ∧
      (c5_out.gamma_samples.getD j none).isSome ∧
      (c5_out.latent_samples.getD j none).isSome) ∧
    (∀ c, c5_out.forest_pred_test = some c →
      ∀ j, j < c5_out.n_keep → (c.getD j none).isSome) :=
  claim_C5_retention c5_X c5_y (some c5_Xtest) c5_cfg c5_out (by rfl)

/-- Concrete covariates for the C6 witness. -/
def c6_X : NpMatrix := { data := [[0], [1]], cols := 1 }

/-- Concrete outcomes with a floating-point dtype for the C6 witness. -/
def c6_y : NpVector := { dtype := NpDtype.float64, vals := [0, 1] }

/-- Concrete configuration for the C6 witness. -/
def c6_cfg : SamplerConfig :=
  { nTrees := 1, numGfr := 0, numBurnin := 1, numMcmc := 1, nThin := 1,
    alphaGamma := 2, betaGamma := 2, seed := 1, numThreads := 1 }

theorem claim_C6_witness :
    CloglogOrdinalBARTModel.sample c6_X c6_y none c6_cfg =
      Except.error (PyError.valueError msg_y_integer) :=
  (claim_C6_validation_errors c6_X c6_y none c6_cfg).1 (by decide)

/-- Concrete covariates for the C7 witness. -/
def c7_X : NpMatrix := { data := [[0], [1]], cols := 1 }

/-- Concrete outcomes for the C7 witness. -/
def c7_y : NpVector := { dtype := NpDtype.int64, vals := [0, 1] }

/-- Concrete configuration for the C7 witness. -/
def c7_cfg : SamplerConfig :=
  { nTrees := 1, numGfr := 0, numBurnin := 1, numMcmc := 1, nThin := 1,
    alphaGamma := 2, betaGamma := 2, seed := 13, numThreads := 1 }

/-- The validated data of the concrete C7 run. -/
def c7_vd : ValidData :=
  { nTrain := 2, nTest := 0, hasTest := false, numLevels := 2, yVals := [0, 1] }

theorem claim_C7_witness :
    (∀ t j, j < c7_vd.nTrain →
      0 < get_auxiliary_data_value (chain_state c7_vd c7_cfg (t + 1)).aux 0 j) ∧
    (∀ out, CloglogOrdinalBARTModel.sample c7_X c7_y none c7_cfg = Except.ok out →
      ∀ j col, out.latent_samples.getD j none = some col → ∀ q ∈ col, 0 < q) :=
  claim_C7_latent_positive c7_X c7_y none c7_cfg c7_vd (by rfl)

/-- Concrete covariates for the C8 witness. -/
def c8_X : NpMatrix := { data := [[0], [1]], cols := 1 }

/-- Concrete outcomes for the C8 witness. -/
def c8_y : NpVector := { dtype := NpDtype.int64, vals := [0, 1] }

/-- Concrete configuration for the C8 witness. -/
def c8_cfg : SamplerConfig :=
  { nTrees := 1, numGfr := 0, numBurnin := 0, numMcmc := 1, nThin := 1,
    alphaGamma := 2, betaGamma := 2, seed := 11, numThreads := 1 }

/-- The output of the concrete C8 run. -/
def c8_out : SampleOutput :=
  match CloglogOrdinalBARTModel.sample c8_X c8_y none c8_cfg with
  | Except.ok o => o
  | Except.error _ => empty_output

theorem claim_C8_witness :
    c8_out.gamma_samples = c8_out.gamma_samples ∧
    c8_out.forest_pred_train = c8_out.forest_pred_train ∧
    c8_out.forest_pred_test = c8_out.forest_pred_test ∧
    c8_out.latent_samples = c8_out.latent_samples :=
  claim_C8_deterministic c8_X c8_y none c8_cfg c8_out c8_out (by rfl) (by rfl)

/-- Concrete covariates for the C10 witness. -/
def c10_X : NpMatrix := { data := [[0], [0], [0]], cols := 1 }

/-- Concrete outcomes for the C10 witness: categories 0, 2 and 1. -/
def c10_y : NpVector := { dtype := NpDtype.int64, vals := [0, 2, 1] }

/-- The validated data of the concrete C10 inputs. -/
def c10_vd : ValidData :=
  { nTrain := 3, nTest := 0, hasTest := false, numLevels := 3, yVals := [0, 2, 1] }

theorem claim_C10_witness :
    (∃ m, np_max_int c10_y.vals = Except.ok m ∧ (c10_vd.numLevels : Int) = m + 1 ∧
      m ∈ c10_y.vals ∧ ∀ v ∈ c10_y.vals, v ≤ m) ∧
    (∀ v ∈ c10_y.vals, 0 ≤ v ∧ v ≤ (c10_vd.numLevels : Int) - 1) ∧
    2 ≤ c10_vd.numLevels ∧
    ¬ (∀ v ∈ c10_y.vals, v = 0) ∧
    (validateInputs { data := [[0], [0]], cols := 1 }
        { dtype := NpDtype.int64, vals := [0, 2] } none =
      Except.ok { nTrain := 2, nTest := 0, hasTest := false,
                  numLevels := 3, yVals := [0, 2] }) ∧
    (∀ (X2 : NpMatrix) (y2 : NpVector), y2.dtype = NpDtype.int64 →
      y2.vals ≠ [] → (∀ v ∈ y2.vals, v = 0) → X2.rows = y2.vals.length →
      validateInputs X2 y2 none =
        Except.error (PyError.valueError msg_levels)) :=
  claim_C10_levels_from_data c10_X c10_y none c10_vd (by rfl)

end Stochtree
